import Mathlib

/-!
Verification of the OpenAPI description synthesizer implemented by
class ApiGetOpenApiDescriptionHandler in
grr/server/grr_response_server/gui/api_plugins/metadata.py.

The Python code is shallowly embedded as follows.

JSON values (the Python dicts, lists, strings, ints and booleans that
populate the OpenAPI object) become the inductive type JVal; dicts are
association lists in insertion order, and json.dumps becomes the function
dumps, with the default separators of the Python json module.

Protobuf reflection descriptors become the closed types PrimType (the 15
primitive wire-type codes of the proto_primitive_types_names table),
TypeDef (Descriptor and EnumDescriptor bodies), Field (FieldDescriptor:
name, referenced type, repeated label), and an environment Env mapping
each full type name to its body; a FieldDescriptor's message_type or
enum_type pointer is modelled as the composite constructor holding the
referenced name, to be resolved through Env.

The argument of _ExtractSchema is Option STy: Python None becomes none,
an int wire-type code becomes prim, the string "BinaryStream" becomes
binaryStream, and any named object (a message Descriptor, an
EnumDescriptor, or an arbitrary class, which are told apart in Python by
isinstance checks) becomes named n; Env decides whether n is a message, an
enum, or an unknown shape.  _GetTypeName is split accordingly into styName
and fieldTypeName.

The handler's mutable state (self.open_api_obj, self.schema_objs) becomes
the record HandlerState threaded explicitly through handle.  A raised
Python exception becomes an Except.error carrying the exception together
with the catalog as mutated up to the raise point, which is what the
Python instance retains when the exception propagates.

The visiting set is mutated by balanced add/remove pairs in
_ExtractMessageSchema, so every recursive call observes exactly the
caller's set plus the enclosing message names; it is therefore passed
downward by value, and the top-level calls of _ExtractSchemas, which in
Python reuse one set that is empty again whenever control returns to that
loop, pass the empty list.

Dict insertion into self.schema_objs is modelled as journal append
(insertJ); this coincides with Python dict assignment as long as every
inserted key is fresh, which theorem extract_journal establishes for every
run of the extractor, and which the seeded primitive names satisfy by
distinctness.  Dict assignment with possibly repeated keys (the paths
object of _SetEndpoints) is modelled by dictSet, which overwrites in
place like Python.
-/

namespace Metadata

/-- JSON value tree: the shape of the Python objects serialized by
json.dumps at the end of Handle. -/
inductive JVal where
  | str (s : String)
  | num (n : Int)
  | bool (b : Bool)
  | arr (xs : List JVal)
  | obj (kvs : List (String × JVal))

/-- Escaping of one character inside a JSON string literal, as json.dumps
does for the characters that actually occur in the synthesized document
(backslash, double quote, newline). -/
def escapeChar (c : Char) : String :=
  if c = '\\' then "\\\\"
  else if c = '"' then "\\\""
  else if c = '\n' then "\\n"
  else String.singleton c

/-- Escaping of a whole JSON string literal body. -/
def escape (s : String) : String := String.join (s.data.map escapeChar)

mutual

/-- Embedding of json.dumps with its default separators: object entries
are joined by a comma and a space, keys and values by a colon and a
space, matching the serialization in Handle. -/
def dumps : JVal → String
  | .str s => "\"" ++ escape s ++ "\""
  | .num n => toString n
  | .bool b => if b then "true" else "false"
  | .arr xs => "[" ++ dumpsList xs ++ "]"
  | .obj kvs => "\x7b" ++ dumpsObj kvs ++ "\x7d"

/-- Serialization of a JSON array body. -/
def dumpsList : List JVal → String
  | [] => ""
  | [x] => dumps x
  | x :: y :: rest => dumps x ++ ", " ++ dumpsList (y :: rest)

/-- Serialization of a JSON object body. -/
def dumpsObj : List (String × JVal) → String
  | [] => ""
  | [(k, v)] => "\"" ++ escape k ++ "\": " ++ dumps v
  | (k, v) :: p :: rest => "\"" ++ escape k ++ "\": " ++ dumps v ++ ", " ++ dumpsObj (p :: rest)

end

/-- Lookup in a Python dict modelled as an association list. -/
def lookupJ {α : Type} : List (String × α) → String → Option α
  | [], _ => none
  | (k, v) :: rest, n => if k = n then some v else lookupJ rest n

/-- Python dict assignment d[n] = v: overwrite in place when the key
exists, append otherwise. -/
def dictSet {α : Type} : List (String × α) → String → α → List (String × α)
  | [], n, v => [(n, v)]
  | (k, w) :: rest, n, v => if k = n then (n, v) :: rest else (k, w) :: dictSet rest n v

/-- Key list of a dict. -/
def keysJ {α : Type} (l : List (String × α)) : List String := l.map Prod.fst

/-- Journalled dict insertion, used for self.schema_objs whose keys are
proved fresh at every insertion (theorem extract_journal). -/
def insertJ {α : Type} (l : List (String × α)) (n : String) (v : α) : List (String × α) :=
  l ++ [(n, v)]

/-- Primitive protobuf wire types, the keys of
proto_primitive_types_names (handler constructor, lines 68 to 84). -/
inductive PrimType where
  | double | float | int64 | uint64 | int32 | fixed64 | fixed32
  | bool | string | bytes | uint32 | sfixed32 | sfixed64 | sint32 | sint64
  deriving DecidableEq

/-- Name of a primitive wire type, the value side of
proto_primitive_types_names. -/
def primName : PrimType → String
  | .double => "protobuf2.TYPE_DOUBLE"
  | .float => "protobuf2.TYPE_FLOAT"
  | .int64 => "protobuf2.TYPE_INT64"
  | .uint64 => "protobuf2.TYPE_UINT64"
  | .int32 => "protobuf2.TYPE_INT32"
  | .fixed64 => "protobuf2.TYPE_FIXED64"
  | .fixed32 => "protobuf2.TYPE_FIXED32"
  | .bool => "protobuf2.TYPE_BOOL"
  | .string => "protobuf2.TYPE_STRING"
  | .bytes => "protobuf2.TYPE_BYTES"
  | .uint32 => "protobuf2.TYPE_UINT32"
  | .sfixed32 => "protobuf2.TYPE_SFIXED32"
  | .sfixed64 => "protobuf2.TYPE_SFIXED64"
  | .sint32 => "protobuf2.TYPE_SINT32"
  | .sint64 => "protobuf2.TYPE_SINT64"

/-- self.primitive_types_names: the 15 primitive names in the order of the
proto_primitive_types_names dict, then "BinaryStream" (lines 85 to 87). -/
def primitiveTypesNames : List String :=
  [ "protobuf2.TYPE_DOUBLE", "protobuf2.TYPE_FLOAT", "protobuf2.TYPE_INT64",
    "protobuf2.TYPE_UINT64", "protobuf2.TYPE_INT32", "protobuf2.TYPE_FIXED64",
    "protobuf2.TYPE_FIXED32", "protobuf2.TYPE_BOOL", "protobuf2.TYPE_STRING",
    "protobuf2.TYPE_BYTES", "protobuf2.TYPE_UINT32", "protobuf2.TYPE_SFIXED32",
    "protobuf2.TYPE_SFIXED64", "protobuf2.TYPE_SINT32", "protobuf2.TYPE_SINT64",
    "BinaryStream" ]

/-- Type of a message field: either a primitive wire-type code (when both
message_type and enum_type of the FieldDescriptor are None) or a composite
reference carrying the full name of the referenced message or enum. -/
inductive FieldType where
  | prim (p : PrimType)
  | composite (n : String)
  deriving DecidableEq

/-- FieldDescriptor: name, referenced type, and whether label equals
LABEL_REPEATED. -/
structure Field where
  name : String
  fieldType : FieldType
  repeated : Bool
  deriving DecidableEq

/-- Body of a named type: a message Descriptor with its ordered field
list, or an EnumDescriptor with its ordered (number, name) values. -/
inductive TypeDef where
  | message (fields : List Field)
  | enumDef (values : List (Int × String))

/-- Reflection environment: full type name to descriptor body.  In Python
each descriptor object carries its own body; the environment realizes
that pointer structure over names, and names absent from it play the role
of objects that are neither Descriptor nor EnumDescriptor. -/
abbrev Env := List (String × TypeDef)

/-- Schema catalog self.schema_objs. -/
abbrev Catalog := List (String × JVal)

/-- Python exceptions raised by the handler. -/
inductive BuildErr where
  | valueError (msg : String)
  | typeError (msg : String)
  | keyError (msg : String)
  deriving DecidableEq

/-- Argument of _ExtractSchema: Python None, an int wire-type code, the
string "BinaryStream", or a named object resolved through Env. -/
inductive STy where
  | prim (p : PrimType)
  | binaryStream
  | named (n : String)
  deriving DecidableEq

/-- Stable name of a type, as computed by _GetTypeName on non-field
values: full_name for descriptors, the primitive table entry for ints,
str(t) for "BinaryStream". -/
def styName : STy → String
  | .prim p => primName p
  | .binaryStream => "BinaryStream"
  | .named n => n

/-- Stable name of a field's type, as computed by _GetTypeName on a
FieldDescriptor: the referenced message or enum full name when present,
else the primitive name of its wire-type code (lines 124 to 131). -/
def fieldTypeName (f : Field) : String :=
  match f.fieldType with
  | .prim p => primName p
  | .composite n => n

/-- OpenAPI Reference Object emitted for composite types
(_GetSchemaOrReferenceObject, lines 415 to 417). -/
def refObject (n : String) : JVal :=
  .obj [("$ref", .str ("#/components/schemas/" ++ n))]

/-- Array wrapper applied when is_array is set
(_GetSchemaOrReferenceObject, lines 419 to 423). -/
def wrapArray (isArray : Bool) (v : JVal) : JVal :=
  if isArray then .obj [("type", .str "array"), ("items", v)] else v

/-- Embedding of _GetSchemaOrReferenceObject: a primitive name is looked
up in the catalog (a missing entry would be a Python KeyError), any other
name becomes a Reference Object; the result is array-wrapped when the
field is repeated. -/
def getSchemaOrReferenceObject (cat : Catalog) (typeName : String) (isArray : Bool) :
    Except BuildErr JVal :=
  if typeName ∈ primitiveTypesNames then
    match lookupJ cat typeName with
    | some schemaObj => .ok (wrapArray isArray schemaObj)
    | none => .error (.keyError typeName)
  else .ok (wrapArray isArray (refObject typeName))

/-- Schema or reference object of one field, the common call pattern of
_ExtractMessageSchema, _GetParameters and _GetRequestBody:
_GetSchemaOrReferenceObject(_GetTypeName(field), label == LABEL_REPEATED). -/
def fieldSchemaOrRef (cat : Catalog) (f : Field) : Except BuildErr JVal :=
  getSchemaOrReferenceObject cat (fieldTypeName f) f.repeated

/-- Enum schema fragment built by _ExtractEnumSchema. -/
def enumSchema (values : List (Int × String)) : JVal :=
  if values.isEmpty then
    .obj [("type", .str "integer"), ("format", .str "int32"), ("enum", .arr [])]
  else
    .obj [("type", .str "integer"), ("format", .str "int32"),
          ("enum", .arr (values.map (fun v => .num v.1))),
          ("description",
           .str (String.intercalate "\n"
             (values.map (fun v => toString v.1 ++ " == " ++ v.2))))]

/-- Message schema fragment assembled at the end of
_ExtractMessageSchema. -/
def messageSchema (props : List (String × JVal)) : JVal :=
  .obj [("type", .str "object"), ("properties", .obj props)]

/-- Primitive schema fragments written by _AddPrimitiveTypesSchemas, in
source order (lines 179 to 275). -/
def primitiveSchemas : List (String × JVal) :=
  [ (primName .double, .obj [("type", .str "number"), ("format", .str "double")]),
    (primName .float, .obj [("type", .str "number"), ("format", .str "float")]),
    (primName .int64, .obj [("type", .str "integer"), ("format", .str "int64")]),
    (primName .uint64, .obj [("type", .str "integer"), ("format", .str "uint64")]),
    (primName .int32, .obj [("type", .str "integer"), ("format", .str "int32")]),
    (primName .fixed64, .obj [("type", .str "integer"), ("format", .str "uint64")]),
    (primName .fixed32, .obj [("type", .str "integer"), ("format", .str "uint32")]),
    (primName .bool, .obj [("type", .str "boolean")]),
    (primName .string, .obj [("type", .str "string")]),
    (primName .bytes, .obj [("type", .str "string"), ("format", .str "binary")]),
    (primName .uint32, .obj [("type", .str "integer"), ("format", .str "uint32")]),
    (primName .sfixed32, .obj [("type", .str "integer"), ("format", .str "int32")]),
    (primName .sfixed64, .obj [("type", .str "integer"), ("format", .str "int64")]),
    (primName .sint32, .obj [("type", .str "integer"), ("format", .str "int32")]),
    (primName .sint64, .obj [("type", .str "integer"), ("format", .str "int64")]),
    ("BinaryStream", .obj [("type", .str "string"), ("format", .str "binary")]) ]

/-- Embedding of _AddPrimitiveTypesSchemas: sixteen dict assignments with
pairwise distinct fresh keys, hence a journal append of the table. -/
def addPrimitiveTypesSchemas (cat : Catalog) : Catalog := cat ++ primitiveSchemas

/-- Catalog right after _ExtractSchemas has seeded the primitives. -/
def primCat : Catalog := addPrimitiveTypesSchemas []

/-- Set of type names defined by the environment; the recursion of
_ExtractSchema is measured by how many of them are not yet in the
visiting set. -/
def domainF (env : Env) : Finset String := (env.map Prod.fst).toFinset

mutual

/-- Embedding of _ExtractSchema (lines 332 to 353): None is a ValueError;
a name already in the catalog is returned as cached; a name currently in
the visiting set is a dependency cycle and returns with no effect; a
message or enum body found in the environment is extracted; anything else
is a TypeError. -/
def extractSchema (env : Env) (cat : Catalog) (visiting : List String) (t : Option STy) :
    Except (BuildErr × Catalog) Catalog :=
  match t with
  | none => .error (.valueError "Trying to extract schema of None.", cat)
  | some ty =>
    if hmem : styName ty ∈ keysJ cat then .ok cat
    else if hvis : styName ty ∈ visiting then .ok cat
    else
      match hty : ty with
      | .prim _ => .error (.typeError (styName ty), cat)
      | .binaryStream => .error (.typeError (styName ty), cat)
      | .named n =>
        match henv : lookupJ env n with
        | some (.message fields) =>
          match extractFields env cat (n :: visiting) fields [] with
          | .error e => .error e
          | .ok (cat1, props) => .ok (insertJ cat1 n (messageSchema props))
        | some (.enumDef values) => .ok (insertJ cat n (enumSchema values))
        | none => .error (.typeError n, cat)
termination_by ((domainF env \ visiting.toFinset).card, 0)
decreasing_by
  apply Prod.Lex.left
  apply Finset.card_lt_card
  have hndom : n ∈ domainF env := by
    have hmemmap : n ∈ env.map Prod.fst := by
      clear hty hvis hmem
      induction env with
      | nil => simp [lookupJ] at henv
      | cons p rest ih =>
        rw [lookupJ] at henv
        by_cases hpe : p.1 = n
        · simp [hpe]
        · rw [if_neg hpe] at henv
          simp [ih henv]
    simpa [domainF] using hmemmap
  have hnvis : n ∉ visiting := by
    simpa [styName] using hvis
  constructor
  · apply Finset.sdiff_subset_sdiff le_rfl
    intro x hx
    simp only [List.toFinset_cons, Finset.mem_insert]
    right
    exact hx
  · intro hsub
    have hn : n ∈ domainF env \ visiting.toFinset :=
      Finset.mem_sdiff.mpr ⟨hndom, by simpa using hnvis⟩
    have hcontra := hsub hn
    simp at hcontra

/-- Embedding of the field loop of _ExtractMessageSchema (lines 311 to
325): for each field, recurse into its referenced composite type if any,
then unconditionally set the property to the schema-or-reference object
of the field's type name. -/
def extractFields (env : Env) (cat : Catalog) (visiting : List String)
    (fields : List Field) (props : List (String × JVal)) :
    Except (BuildErr × Catalog) (Catalog × List (String × JVal)) :=
  match fields with
  | [] => .ok (cat, props)
  | f :: rest =>
    match f.fieldType with
    | .composite c =>
      match extractSchema env cat visiting (some (.named c)) with
      | .error e => .error e
      | .ok cat1 =>
        match fieldSchemaOrRef cat1 f with
        | .error e => .error (e, cat1)
        | .ok sref => extractFields env cat1 visiting rest (props ++ [(f.name, sref)])
    | .prim _ =>
      match fieldSchemaOrRef cat f with
      | .error e => .error (e, cat)
      | .ok sref => extractFields env cat visiting rest (props ++ [(f.name, sref)])
termination_by ((domainF env \ visiting.toFinset).card, fields.length + 1)
decreasing_by
  · apply Prod.Lex.right
    simp only [List.length_cons]
    omega
  · apply Prod.Lex.right
    simp only [List.length_cons]
    omega
  · apply Prod.Lex.right
    simp only [List.length_cons]
    omega

end

/-- Argument type declared by a router method: an RDFProtoStruct subclass
wrapping a protobuf descriptor, or any other value (class or otherwise),
which _SetEndpoints rejects with a TypeError. -/
inductive ArgsType where
  | rdfStruct (n : String)
  | other (t : STy)

/-- Result type declared by a router method: an RDFProtoStruct subclass
or the raw byte stream marker, the string "BinaryStream". -/
inductive RType where
  | rdfStruct (n : String)
  | binaryStream

/-- MethodMetadata of one annotated router method. -/
structure Method where
  name : String
  category : Option String
  doc : Option String
  httpMethods : List (String × String × Bool)
  argsType : Option ArgsType
  resultType : Option RType

/-- Router registry, the insertion-ordered result of
GetAnnotatedMethods. -/
abbrev Registry := List Method

/-- Extraction of one method's args type by _ExtractSchemas: an
RDFProtoStruct subclass contributes its protobuf descriptor, any other
truthy value is passed to _ExtractSchema directly. -/
def extractArgsTypeSchema (env : Env) (cat : Catalog) (a : Option ArgsType) :
    Except (BuildErr × Catalog) Catalog :=
  match a with
  | none => .ok cat
  | some (.rdfStruct n) => extractSchema env cat [] (some (.named n))
  | some (.other s) => extractSchema env cat [] (some s)

/-- Extraction of one method's result type by _ExtractSchemas; the
"BinaryStream" marker is not a class and goes to _ExtractSchema directly,
where its pre-seeded catalog entry short-circuits. -/
def extractResultTypeSchema (env : Env) (cat : Catalog) (r : Option RType) :
    Except (BuildErr × Catalog) Catalog :=
  match r with
  | none => .ok cat
  | some (.rdfStruct n) => extractSchema env cat [] (some (.named n))
  | some .binaryStream => extractSchema env cat [] (some .binaryStream)

/-- Method loop of _ExtractSchemas. -/
def extractSchemasLoop (env : Env) (cat : Catalog) : Registry → Except (BuildErr × Catalog) Catalog
  | [] => .ok cat
  | m :: rest =>
    match extractArgsTypeSchema env cat m.argsType with
    | .error e => .error e
    | .ok cat1 =>
      match extractResultTypeSchema env cat1 m.resultType with
      | .error e => .error e
      | .ok cat2 => extractSchemasLoop env cat2 rest

/-- Embedding of _ExtractSchemas: seed the primitives, then extract the
args and result types of every registered method. -/
def extractSchemas (env : Env) (registry : Registry) : Except (BuildErr × Catalog) Catalog :=
  extractSchemasLoop env (addPrimitiveTypesSchemas []) registry

/-- Composite-only schema table of _SetComponents: every catalog entry
whose name is not a primitive type name. -/
def setComponentsSchemas (cat : Catalog) : List (String × JVal) :=
  cat.filter (fun kv => !(decide (kv.1 ∈ primitiveTypesNames)))

/-- Embedding of _SetComponents. -/
def setComponents (cat : Catalog) : JVal :=
  .obj [("schemas", .obj (setComponentsSchemas cat))]

/-- Embedding of _SimplifyPathNode: a Werkzeug placeholder node
(angle-bracketed, optionally converter-annotated) becomes a brace-wrapped
bare parameter name. -/
def simplifyPathNode (node : String) : String :=
  if node.length > 0 ∧ node.front = '<' ∧ node.back = '>' then
    let inner := (node.drop 1).dropRight 1
    "\x7b" ++ (inner.splitOn ":").getLastD inner ++ "\x7d"
  else node

/-- Embedding of _SimplifyPath. -/
def simplifyPath (path : String) : String :=
  String.intercalate "/" ((path.splitOn "/").map simplifyPathNode)

/-- Embedding of _GetPathArgsFromPath: the ordered parameter names of a
Werkzeug rule. -/
def getPathArgsFromPath (path : String) : List String :=
  (path.splitOn "/").filterMap (fun node =>
    if node.length > 0 ∧ node.front = '<' ∧ node.back = '>' then
      some (((simplifyPathNode node).drop 1).dropRight 1)
    else none)

/-- Python falsy-default idiom x or d used for category and doc. -/
def orDefaultStr (o : Option String) (d : String) : String :=
  match o with
  | some s => if s = "" then d else s
  | none => d

/-- Uppercase hexadecimal digit. -/
def hexDigit (n : Nat) : Char :=
  if n < 10 then Char.ofNat (48 + n) else Char.ofNat (55 + n)

/-- Characters urllib.parse.quote leaves unescaped with the default
safe set: ASCII letters and digits, underscore, dot, hyphen, tilde, and
the slash. -/
def isUrlSafe (b : UInt8) : Bool :=
  (65 ≤ b.toNat && b.toNat ≤ 90) || (97 ≤ b.toNat && b.toNat ≤ 122) ||
  (48 ≤ b.toNat && b.toNat ≤ 57) ||
  b.toNat = 95 || b.toNat = 46 || b.toNat = 45 || b.toNat = 126 || b.toNat = 47

/-- Embedding of urllib.parse.quote over the UTF-8 bytes of the input. -/
def urlQuote (s : String) : String :=
  s.toUTF8.toList.foldl
    (fun acc b =>
      if isUrlSafe b then acc.push (Char.ofNat b.toNat)
      else acc ++ "%" ++ String.singleton (hexDigit (b.toNat / 16)) ++
           String.singleton (hexDigit (b.toNat % 16)))
    ""

/-- ASCII uppercasing of one character, the effect of Python str.upper
on the verb names that occur in HTTP bindings. -/
def charUpper (c : Char) : Char :=
  if 97 ≤ c.toNat ∧ c.toNat ≤ 122 then Char.ofNat (c.toNat - 32) else c

/-- ASCII lowercasing of one character, the effect of Python str.lower
on the verb names that occur in HTTP bindings. -/
def charLower (c : Char) : Char :=
  if 65 ≤ c.toNat ∧ c.toNat ≤ 90 then Char.ofNat (c.toNat + 32) else c

/-- Python str.upper over the ASCII verb strings of the router. -/
def strUpper (s : String) : String := String.mk (s.data.map charUpper)

/-- Python str.lower over the ASCII verb strings of the router. -/
def strLower (s : String) : String := String.mk (s.data.map charLower)

/-- Field triage loop of _SetEndpoints (lines 553 to 563): a field named
in the path-parameter set is a path parameter whatever the verb; otherwise
GET and HEAD verbs put it in the query group and every other verb in the
request-body group. -/
def triageFields : List Field → List String → String → List Field × List Field × List Field
  | [], _, _ => ([], [], [])
  | f :: rest, pathArgs, httpMethod =>
    let t := triageFields rest pathArgs httpMethod
    if f.name ∈ pathArgs then (f :: t.1, t.2.1, t.2.2)
    else if strUpper httpMethod ∈ ["GET", "HEAD"] then (t.1, f :: t.2.1, t.2.2)
    else (t.1, t.2.1, f :: t.2.2)

/-- Parameter Object of one path or query field built by the loop body of
_GetParameters: name, location, required flag for path parameters, and
the schema-or-reference object of the field's type. -/
def mkParameterObj (cat : Catalog) (pathParams : List Field) (f : Field) :
    Except BuildErr JVal :=
  match fieldSchemaOrRef cat f with
  | .error e => .error e
  | .ok sref =>
    if f ∈ pathParams then
      .ok (.obj [("name", .str f.name), ("in", .str "path"),
                 ("required", .bool true), ("schema", sref)])
    else
      .ok (.obj [("name", .str f.name), ("in", .str "query"), ("schema", sref)])

/-- Parameter loop of _GetParameters. -/
def getParametersLoop (cat : Catalog) (pathParams : List Field) :
    List Field → Except BuildErr (List JVal)
  | [] => .ok []
  | f :: rest =>
    match mkParameterObj cat pathParams f with
    | .error e => .error e
    | .ok paramObj =>
      match getParametersLoop cat pathParams rest with
      | .error e => .error e
      | .ok params => .ok (paramObj :: params)

/-- Embedding of _GetParameters.  Python iterates over the set union
path_params | query_params, whose order is unspecified; the embedding
iterates the concatenation of the two disjoint groups, and membership of
a field in path_params decides its location exactly as in the source. -/
def getParameters (cat : Catalog) (pathParams queryParams : List Field) :
    Except BuildErr (List JVal) :=
  getParametersLoop cat pathParams (pathParams ++ queryParams)

/-- Properties of the request-body schema built by the field loop of
_GetRequestBody, in field order. -/
def requestBodyProperties (cat : Catalog) : List Field → Except BuildErr (List (String × JVal))
  | [] => .ok []
  | f :: rest =>
    match fieldSchemaOrRef cat f with
    | .error e => .error e
    | .ok sref =>
      match requestBodyProperties cat rest with
      | .error e => .error e
      | .ok props => .ok ((f.name, sref) :: props)

/-- Embedding of _GetRequestBody. -/
def getRequestBody (cat : Catalog) (bodyParams : List Field) : Except BuildErr JVal :=
  match requestBodyProperties cat bodyParams with
  | .error e => .error e
  | .ok props =>
    .ok (.obj [("content", .obj [("application/json",
          .obj [("schema", .obj [("type", .str "object"), ("properties", .obj props)])])])])

/-- Stable name of a result type as computed by _GetResponseObject200: the
descriptor full name of an RDFProtoStruct subclass, str of the
"BinaryStream" marker otherwise. -/
def resultTypeName : RType → String
  | .rdfStruct n => n
  | .binaryStream => "BinaryStream"

/-- Embedding of _GetResponseObject200: a 200 response describing the
result type; the "BinaryStream" marker selects the octet-stream media
type, every other result type the JSON media type. -/
def getResponseObject200 (cat : Catalog) (resultType : Option RType) (methodName : String) :
    Except BuildErr JVal :=
  match resultType with
  | none =>
    .ok (.obj [("description",
      .str ("The call to the " ++ methodName ++ " API method succeeded."))])
  | some rt =>
    match getSchemaOrReferenceObject cat (resultTypeName rt) false with
    | .error e => .error e
    | .ok sref =>
      let contentKey :=
        match rt with
        | .binaryStream => "application/octet-stream"
        | .rdfStruct _ => "application/json"
      .ok (.obj [("description",
            .str ("The call to the " ++ methodName ++
              " API method succeeded and it returned an instance of " ++
              resultTypeName rt ++ ".")),
            ("content", .obj [(contentKey, .obj [("schema", sref)])])])

/-- Embedding of _GetResponseObjectDefault. -/
def getResponseObjectDefault (methodName : String) : JVal :=
  .obj [("description",
    .str ("The call to the " ++ methodName ++ " API method did not succeed."))]

/-- Field descriptors of a method's args type as enumerated by
_SetEndpoints: empty when no args type is declared, the descriptor fields
of an RDFProtoStruct subclass, and a TypeError for any other shape
(lines 543 to 551). -/
def methodFieldDescriptors (env : Env) (m : Method) : Except BuildErr (List Field) :=
  match m.argsType with
  | none => .ok []
  | some (.rdfStruct n) =>
    .ok (match lookupJ env n with
         | some (.message fields) => fields
         | _ => [])
  | some (.other _) =>
    .error (.typeError "Router method args type is not a RDFProtoStruct subclass.")

/-- Operation Object of one (method, HTTP binding) pair, the body of the
inner loop of _SetEndpoints. -/
def mkOperationObj (env : Env) (cat : Catalog) (m : Method) (httpMethod path : String) :
    Except BuildErr JVal :=
  let pathArgs := getPathArgsFromPath path
  let urlPath := ((((path.replace "/" "-").replace "<" "_").replace ">" "_").replace ":" "-")
  let operationId := urlQuote (httpMethod ++ "-" ++ urlPath ++ "-" ++ m.name)
  match methodFieldDescriptors env m with
  | .error e => .error e
  | .ok fieldDescriptors =>
    let (pathParams, queryParams, bodyParams) := triageFields fieldDescriptors pathArgs httpMethod
    match getParameters cat pathParams queryParams with
    | .error e => .error e
    | .ok params =>
      let base := [("tags", JVal.arr [.str (orDefaultStr m.category "NoCategory")]),
                   ("description", JVal.str (orDefaultStr m.doc "No description.")),
                   ("operationId", JVal.str operationId),
                   ("parameters", JVal.arr params)]
      let withBody : Except BuildErr (List (String × JVal)) :=
        if bodyParams.isEmpty then .ok base
        else
          match getRequestBody cat bodyParams with
          | .error e => .error e
          | .ok rb => .ok (base ++ [("requestBody", rb)])
      match withBody with
      | .error e => .error e
      | .ok entries =>
        match getResponseObject200 cat m.resultType m.name with
        | .error e => .error e
        | .ok resp200 =>
          .ok (.obj (entries ++
            [("responses", .obj [("200", resp200),
                                 ("default", getResponseObjectDefault m.name)])]))

/-- HTTP-binding loop of _SetEndpoints for one method, threading the
paths dict. -/
def setEndpointsBindings (env : Env) (cat : Catalog) (m : Method)
    (paths : List (String × List (String × JVal))) :
    List (String × String × Bool) → Except BuildErr (List (String × List (String × JVal)))
  | [] => .ok paths
  | (httpMethod, path, _) :: rest =>
    let simplePath := simplifyPath path
    let pathObj := (lookupJ paths simplePath).getD []
    match mkOperationObj env cat m httpMethod path with
    | .error e => .error e
    | .ok op =>
      setEndpointsBindings env cat m
        (dictSet paths simplePath (dictSet pathObj (strLower httpMethod) op)) rest

/-- Method loop of _SetEndpoints. -/
def setEndpointsLoop (env : Env) (cat : Catalog)
    (paths : List (String × List (String × JVal))) :
    Registry → Except BuildErr (List (String × List (String × JVal)))
  | [] => .ok paths
  | m :: rest =>
    match setEndpointsBindings env cat m paths m.httpMethods with
    | .error e => .error e
    | .ok paths1 => setEndpointsLoop env cat paths1 rest

/-- Embedding of _SetEndpoints: the Paths Object, path template to verb
to Operation Object. -/
def setEndpoints (env : Env) (registry : Registry) (cat : Catalog) : Except BuildErr JVal :=
  match setEndpointsLoop env cat [] registry with
  | .error e => .error e
  | .ok paths => .ok (.obj (paths.map (fun kv => (kv.1, JVal.obj kv.2))))

/-- Version numbers consumed by _SetMetadata. -/
structure Version where
  major : Nat
  minor : Nat
  revision : Nat
  release : Nat

/-- Embedding of _SetMetadata: the openapi, info and servers fields. -/
def setMetadata (ver : Version) (doc : List (String × JVal)) : List (String × JVal) :=
  let infoObj := JVal.obj
    [("title", .str "GRR Rapid Response API"),
     ("description", .str ("GRR Rapid Response is an incident response " ++
        "framework focused on remote live forensics.")),
     ("contact", .obj [("name", .str "GRR GitHub Repository"),
                       ("url", .str "https://github.com/google/grr")]),
     ("license", .obj [("name", .str "Apache 2.0"),
                       ("url", .str "http://www.apache.org/licenses/LICENSE-2.0")]),
     ("version", .str (toString ver.major ++ "." ++ toString ver.minor ++ "." ++
        toString ver.revision ++ "." ++ toString ver.release))]
  let servers := JVal.arr
    [.obj [("url", .str "/"), ("description", .str "Root path of the GRR API")]]
  dictSet (dictSet (dictSet doc "openapi" (.str "3.0.3")) "info" infoObj) "servers" servers

/-- Mutable state of an ApiGetOpenApiDescriptionHandler instance:
self.open_api_obj and self.schema_objs, both initially None. -/
structure HandlerState where
  openApiObj : Option (List (String × JVal))
  schemaObjs : Option Catalog

/-- Handler state right after construction. -/
def initState : HandlerState := ⟨none, none⟩

/-- Embedding of Handle (lines 587 to 605).  A cached open_api_obj is
serialized and returned as is.  Otherwise the handler assigns a fresh
dict to self.open_api_obj BEFORE building, so an exception raised during
the build leaves the partially populated document cached; the returned
pair carries the serialized document or the exception, together with the
instance state after the call. -/
def handle (env : Env) (registry : Registry) (ver : Version) (s : HandlerState) :
    Except BuildErr String × HandlerState :=
  match s.openApiObj with
  | some doc => (.ok (dumps (.obj doc)), s)
  | none =>
    let doc1 := setMetadata ver []
    match extractSchemas env registry with
    | .error (e, partialCat) => (.error e, ⟨some doc1, some partialCat⟩)
    | .ok cat =>
      let doc2 := dictSet doc1 "components" (setComponents cat)
      match setEndpoints env registry cat with
      | .error e => (.error e, ⟨some doc2, some cat⟩)
      | .ok paths =>
        let doc3 := dictSet doc2 "paths" paths
        (.ok (dumps (.obj doc3)), ⟨some doc3, some cat⟩)

/-- Discriminator for results that did not raise. -/
def isOkE {ε α : Type} : Except ε α → Bool
  | .ok _ => true
  | .error _ => false

/-- Discriminator for a propagated Python ValueError of the extractor. -/
def resultValueError : Except (BuildErr × Catalog) Catalog → Bool
  | .error (.valueError _, _) => true
  | _ => false

/-- Discriminator for a propagated Python TypeError of the extractor. -/
def resultTypeError : Except (BuildErr × Catalog) Catalog → Bool
  | .error (.typeError _, _) => true
  | _ => false

/-- Journal property of one extractor run: the catalog grows by a block of
new entries whose names are pairwise distinct, absent from the visiting
set, and absent from the starting catalog, so no name is ever bound
twice. -/
def JournalProp (cat : Catalog) (visiting : List String) (cat1 : Catalog) : Prop :=
  ∃ new, keysJ cat1 = keysJ cat ++ new ∧ new.Nodup ∧
    ∀ x ∈ new, x ∉ visiting ∧ x ∉ keysJ cat

/-- Catalog that contains every primitive type name, as guaranteed by the
seeding of _AddPrimitiveTypesSchemas before any extraction. -/
def Seeded (cat : Catalog) : Prop := ∀ s ∈ primitiveTypesNames, s ∈ keysJ cat

/-- Well-formed reflection environment: every composite field of every
message resolves, which always holds in Python because a FieldDescriptor
holds an actual sub-descriptor object. -/
def WFEnv (env : Env) : Prop :=
  ∀ n fields, lookupJ env n = some (.message fields) →
    ∀ f ∈ fields, ∀ c, f.fieldType = .composite c → (lookupJ env c).isSome = true

/-- Inputs on which _ExtractSchema does not raise: a present type whose
stable name is cached, or mid-expansion, or defined by the environment. -/
def ShapeOk (env : Env) (cat : Catalog) (visiting : List String) : Option STy → Prop
  | none => False
  | some ty => styName ty ∈ keysJ cat ∨ styName ty ∈ visiting ∨
      ∃ n, ty = STy.named n ∧ (lookupJ env n).isSome = true

/-- Content-type keys of the media map of a Response Object. -/
def responseContentKeys (v : JVal) : List String :=
  match v with
  | .obj kvs =>
    match lookupJ kvs "content" with
    | some (.obj cs) => keysJ cs
    | _ => []
  | _ => []

/-- Self-referential message type: the spec's cycle example, a message A
with a field whose type is A itself. -/
def envA : Env := [("A", .message [⟨"self_ref", .composite "A", false⟩])]

/-- Field of envA's message. -/
def selfRefField : Field := ⟨"self_ref", .composite "A", false⟩

/-- Two-message cycle A to B to A, with a repeated back-edge field and a
primitive field on B. -/
def envAB : Env :=
  [("A", .message [⟨"b_field", .composite "B", false⟩]),
   ("B", .message [⟨"a_field", .composite "A", true⟩, ⟨"num", .prim .int32, false⟩])]

/-- Catalog produced by extracting A from envAB. -/
def catAB : Catalog :=
  primCat ++
    [("B", .obj [("type", .str "object"),
       ("properties", .obj [("a_field", .obj [("type", .str "array"),
          ("items", refObject "A")]), ("num", .obj [("type", .str "integer"),
          ("format", .str "int32")])])]),
     ("A", .obj [("type", .str "object"),
       ("properties", .obj [("b_field", refObject "B")])])]

/-- Router method whose args type is not an RDFProtoStruct subclass, so
schema extraction raises a TypeError mid-build. -/
def badMethod : Method :=
  { name := "BadMethod", category := none, doc := none,
    httpMethods := [("GET", "/bad", false)],
    argsType := some (.other (.named "Bogus")), resultType := none }

/-- Fields of the parameter-classification example of the spec. -/
def clientIdField : Field := ⟨"client_id", .prim .string, false⟩

/-- Second example field. -/
def offsetField : Field := ⟨"offset", .prim .int64, false⟩

/-- Third example field. -/
def countField : Field := ⟨"count", .prim .int64, false⟩

/-- Example input field list. -/
def demoFields : List Field := [clientIdField, offsetField, countField]

/-- Lookup succeeds only on keys of the dict. -/
theorem lookupJ_mem_fst {α : Type} {l : List (String × α)} {n : String} {v : α}
    (h : lookupJ l n = some v) : n ∈ keysJ l := by
  induction l with
  | nil => simp [lookupJ] at h
  | cons p rest ih =>
    rw [lookupJ] at h
    by_cases hpe : p.1 = n
    · simp [keysJ, hpe]
    · rw [if_neg hpe] at h
      have hmem := ih h
      simp only [keysJ, List.map_cons, List.mem_cons]
      exact Or.inr hmem

/-- Lookup succeeds on every key of the dict. -/
theorem lookupJ_isSome_of_mem {α : Type} {l : List (String × α)} {n : String}
    (h : n ∈ keysJ l) : (lookupJ l n).isSome = true := by
  induction l with
  | nil => simp [keysJ] at h
  | cons p rest ih =>
    rw [lookupJ]
    by_cases hpe : p.1 = n
    · simp [hpe]
    · rw [if_neg hpe]
      simp only [keysJ, List.map_cons, List.mem_cons] at h
      rcases h with h | h
      · exact absurd h.symm hpe
      · exact ih h

/-- Lookup distributes over dict concatenation, left side first. -/
theorem lookupJ_append {α : Type} (a b : List (String × α)) (n : String) :
    lookupJ (a ++ b) n =
      match lookupJ a n with
      | some v => some v
      | none => lookupJ b n := by
  induction a with
  | nil => simp [lookupJ]
  | cons p rest ih =>
    rw [List.cons_append, lookupJ, lookupJ]
    by_cases hpe : p.1 = n
    · simp [hpe]
    · rw [if_neg hpe, if_neg hpe, ih]

/-- Keys of a journal insertion. -/
theorem keysJ_insertJ {α : Type} (l : List (String × α)) (n : String) (v : α) :
    keysJ (insertJ l n v) = keysJ l ++ [n] := by
  simp [keysJ, insertJ]

/-- Evaluation of _ExtractSchema on an absent type. -/
theorem extractSchema_none (env : Env) (cat : Catalog) (visiting : List String) :
    extractSchema env cat visiting none =
      .error (.valueError "Trying to extract schema of None.", cat) := by
  simp only [extractSchema]

/-- Evaluation of _ExtractSchema on a cached type name. -/
theorem extractSchema_cached (env : Env) (cat : Catalog) (visiting : List String)
    (ty : STy) (h : styName ty ∈ keysJ cat) :
    extractSchema env cat visiting (some ty) = .ok cat := by
  simp only [extractSchema]
  rw [dif_pos h]

/-- Evaluation of _ExtractSchema on a dependency-cycle back-edge. -/
theorem extractSchema_visiting (env : Env) (cat : Catalog) (visiting : List String)
    (ty : STy) (h1 : styName ty ∉ keysJ cat) (h2 : styName ty ∈ visiting) :
    extractSchema env cat visiting (some ty) = .ok cat := by
  simp only [extractSchema]
  rw [dif_neg h1, dif_pos h2]

/-- Evaluation of _ExtractSchema on an uncached primitive code. -/
theorem extractSchema_prim (env : Env) (cat : Catalog) (visiting : List String)
    (p : PrimType) (h1 : primName p ∉ keysJ cat) (h2 : primName p ∉ visiting) :
    extractSchema env cat visiting (some (.prim p)) =
      .error (.typeError (primName p), cat) := by
  simp only [extractSchema, styName]
  rw [dif_neg h1, dif_neg h2]

/-- Evaluation of _ExtractSchema on an uncached BinaryStream marker. -/
theorem extractSchema_binaryStream (env : Env) (cat : Catalog) (visiting : List String)
    (h1 : "BinaryStream" ∉ keysJ cat) (h2 : "BinaryStream" ∉ visiting) :
    extractSchema env cat visiting (some .binaryStream) =
      .error (.typeError "BinaryStream", cat) := by
  simp only [extractSchema, styName]
  rw [dif_neg h1, dif_neg h2]

/-- Evaluation of _ExtractSchema on an uncached, not-yet-visited message
name whose field pass succeeds. -/
theorem extractSchema_message_ok (env : Env) (cat : Catalog) (visiting : List String)
    (n : String) (fields : List Field) (cat1 : Catalog) (props : List (String × JVal))
    (h1 : n ∉ keysJ cat) (h2 : n ∉ visiting)
    (henv : lookupJ env n = some (.message fields))
    (hf : extractFields env cat (n :: visiting) fields [] = .ok (cat1, props)) :
    extractSchema env cat visiting (some (.named n)) =
      .ok (insertJ cat1 n (messageSchema props)) := by
  simp only [extractSchema, styName]
  rw [dif_neg h1, dif_neg h2]
  split <;> rename_i heq <;> rw [henv] at heq <;> simp at heq
  subst heq
  rw [hf]

/-- Evaluation of _ExtractSchema on an uncached, not-yet-visited message
name whose field pass raises. -/
theorem extractSchema_message_err (env : Env) (cat : Catalog) (visiting : List String)
    (n : String) (fields : List Field) (e : BuildErr × Catalog)
    (h1 : n ∉ keysJ cat) (h2 : n ∉ visiting)
    (henv : lookupJ env n = some (.message fields))
    (hf : extractFields env cat (n :: visiting) fields [] = .error e) :
    extractSchema env cat visiting (some (.named n)) = .error e := by
  simp only [extractSchema, styName]
  rw [dif_neg h1, dif_neg h2]
  split <;> rename_i heq <;> rw [henv] at heq <;> simp at heq
  subst heq
  rw [hf]

/-- Evaluation of _ExtractSchema on an uncached, not-yet-visited enum
name. -/
theorem extractSchema_enum (env : Env) (cat : Catalog) (visiting : List String)
    (n : String) (values : List (Int × String)) (h1 : n ∉ keysJ cat) (h2 : n ∉ visiting)
    (henv : lookupJ env n = some (.enumDef values)) :
    extractSchema env cat visiting (some (.named n)) =
      .ok (insertJ cat n (enumSchema values)) := by
  simp only [extractSchema, styName]
  rw [dif_neg h1, dif_neg h2]
  split <;> rename_i heq <;> rw [henv] at heq <;> simp at heq
  subst heq
  rfl

/-- Evaluation of _ExtractSchema on a name that is neither cached, nor
being visited, nor a message, nor an enum. -/
theorem extractSchema_named_unknown (env : Env) (cat : Catalog) (visiting : List String)
    (n : String) (h1 : n ∉ keysJ cat) (h2 : n ∉ visiting)
    (henv : lookupJ env n = none) :
    extractSchema env cat visiting (some (.named n)) = .error (.typeError n, cat) := by
  simp only [extractSchema, styName]
  rw [dif_neg h1, dif_neg h2]
  split <;> rename_i heq <;> rw [henv] at heq <;> simp at heq

/-- Evaluation of the field loop on an exhausted field list. -/
theorem extractFields_nil (env : Env) (cat : Catalog) (visiting : List String)
    (props : List (String × JVal)) :
    extractFields env cat visiting [] props = .ok (cat, props) := by
  simp only [extractFields]

/-- Evaluation of the field loop on a composite head field whose
recursive extraction raises. -/
theorem extractFields_composite_err (env : Env) (cat : Catalog) (visiting : List String)
    (f : Field) (rest : List Field) (props : List (String × JVal)) (c : String)
    (e : BuildErr × Catalog) (hc : f.fieldType = .composite c)
    (hs : extractSchema env cat visiting (some (.named c)) = .error e) :
    extractFields env cat visiting (f :: rest) props = .error e := by
  simp only [extractFields]
  rw [hc]
  dsimp only
  rw [hs]

/-- Evaluation of the field loop on a composite head field whose
schema-or-reference lookup raises. -/
theorem extractFields_composite_err2 (env : Env) (cat : Catalog) (visiting : List String)
    (f : Field) (rest : List Field) (props : List (String × JVal)) (c : String)
    (cat1 : Catalog) (e : BuildErr) (hc : f.fieldType = .composite c)
    (hs : extractSchema env cat visiting (some (.named c)) = .ok cat1)
    (hr : fieldSchemaOrRef cat1 f = .error e) :
    extractFields env cat visiting (f :: rest) props = .error (e, cat1) := by
  simp only [extractFields]
  rw [hc]
  dsimp only
  rw [hs]
  dsimp only
  rw [hr]

/-- Evaluation of the field loop on a composite head field that
succeeds. -/
theorem extractFields_composite_ok (env : Env) (cat : Catalog) (visiting : List String)
    (f : Field) (rest : List Field) (props : List (String × JVal)) (c : String)
    (cat1 : Catalog) (sref : JVal) (hc : f.fieldType = .composite c)
    (hs : extractSchema env cat visiting (some (.named c)) = .ok cat1)
    (hr : fieldSchemaOrRef cat1 f = .ok sref) :
    extractFields env cat visiting (f :: rest) props =
      extractFields env cat1 visiting rest (props ++ [(f.name, sref)]) := by
  simp only [extractFields]
  rw [hc]
  dsimp only
  rw [hs]
  dsimp only
  rw [hr]

/-- Evaluation of the field loop on a primitive head field whose
schema lookup raises. -/
theorem extractFields_prim_err (env : Env) (cat : Catalog) (visiting : List String)
    (f : Field) (rest : List Field) (props : List (String × JVal)) (p : PrimType)
    (e : BuildErr) (hp : f.fieldType = .prim p)
    (hr : fieldSchemaOrRef cat f = .error e) :
    extractFields env cat visiting (f :: rest) props = .error (e, cat) := by
  simp only [extractFields]
  rw [hp]
  dsimp only
  rw [hr]

/-- Evaluation of the field loop on a primitive head field that
succeeds. -/
theorem extractFields_prim_ok (env : Env) (cat : Catalog) (visiting : List String)
    (f : Field) (rest : List Field) (props : List (String × JVal)) (p : PrimType)
    (sref : JVal) (hp : f.fieldType = .prim p)
    (hr : fieldSchemaOrRef cat f = .ok sref) :
    extractFields env cat visiting (f :: rest) props =
      extractFields env cat visiting rest (props ++ [(f.name, sref)]) := by
  simp only [extractFields]
  rw [hp]
  dsimp only
  rw [hr]

/-- Journal property of a run that did not change the catalog. -/
theorem journalProp_refl (cat : Catalog) (visiting : List String) :
    JournalProp cat visiting cat :=
  ⟨[], by simp, List.nodup_nil, by simp⟩

/-- Journal property of a single fresh insertion. -/
theorem journalProp_insert (cat : Catalog) (visiting : List String) (n : String)
    (v : JVal) (hn1 : n ∉ keysJ cat) (hn2 : n ∉ visiting) :
    JournalProp cat visiting (insertJ cat n v) := by
  refine ⟨[n], ?_, List.nodup_singleton n, ?_⟩
  · simp [keysJ_insertJ]
  · intro x hx
    simp only [List.mem_singleton] at hx
    subst hx
    exact ⟨hn2, hn1⟩

/-- Journal property composes along sequential catalog growth. -/
theorem journalProp_trans {cat cat1 cat2 : Catalog} {visiting : List String}
    (h1 : JournalProp cat visiting cat1) (h2 : JournalProp cat1 visiting cat2) :
    JournalProp cat visiting cat2 := by
  obtain ⟨n1, hk1, hnd1, hf1⟩ := h1
  obtain ⟨n2, hk2, hnd2, hf2⟩ := h2
  refine ⟨n1 ++ n2, ?_, ?_, ?_⟩
  · rw [hk2, hk1, List.append_assoc]
  · rw [List.nodup_append]
    refine ⟨hnd1, hnd2, ?_⟩
    intro x hx1 hx2
    exact (hf2 x hx2).2 (hk1 ▸ List.mem_append_right _ hx1)
  · intro x hx
    rcases List.mem_append.mp hx with hx | hx
    · exact hf1 x hx
    · refine ⟨(hf2 x hx).1, ?_⟩
      intro hmem
      exact (hf2 x hx).2 (hk1 ▸ List.mem_append_left _ hmem)

/-- Journal property of a finished message extraction: growth of the
field pass under the extended visiting set, followed by the fresh
insertion of the message name itself. -/
theorem journalProp_message {cat cat1 : Catalog} {visiting : List String} {n : String}
    (w : JVal) (h : JournalProp cat (n :: visiting) cat1)
    (hn1 : n ∉ keysJ cat) (hn2 : n ∉ visiting) :
    JournalProp cat visiting (insertJ cat1 n w) := by
  obtain ⟨new, hk, hnd, hf⟩ := h
  refine ⟨new ++ [n], ?_, ?_, ?_⟩
  · rw [keysJ_insertJ, hk, List.append_assoc]
  · rw [List.nodup_append]
    refine ⟨hnd, List.nodup_singleton n, ?_⟩
    intro x hx1 hx2
    simp only [List.mem_singleton] at hx2
    subst hx2
    exact (hf x hx1).1 (List.mem_cons_self _ _)
  · intro x hx
    rcases List.mem_append.mp hx with hx | hx
    · have := hf x hx
      exact ⟨fun hv => this.1 (List.mem_cons_of_mem _ hv), this.2⟩
    · simp only [List.mem_singleton] at hx
      subst hx
      exact ⟨hn2, hn1⟩

/-- Journal property weakens from an extended visiting set to the
enclosing one. -/
theorem journalProp_weaken {cat cat1 : Catalog} {visiting : List String} {n : String}
    (h : JournalProp cat (n :: visiting) cat1) : JournalProp cat visiting cat1 := by
  obtain ⟨new, hk, hnd, hf⟩ := h
  exact ⟨new, hk, hnd, fun x hx =>
    ⟨fun hv => (hf x hx).1 (List.mem_cons_of_mem _ hv), (hf x hx).2⟩⟩

/-- Journal invariant of the extractor: every successful run extends the
catalog by fresh, pairwise distinct names that are not mid-expansion, so
the dict assignments of _ExtractMessageSchema and _ExtractEnumSchema
never hit an existing key. -/
theorem extract_journal (env : Env) :
    (∀ cat visiting t, ∀ cat1, extractSchema env cat visiting t = .ok cat1 →
       JournalProp cat visiting cat1) ∧
    (∀ cat visiting fields props, ∀ out,
       extractFields env cat visiting fields props = .ok out →
       JournalProp cat visiting out.1) := by
  apply extractSchema.mutual_induct env
    (fun cat visiting t => ∀ cat1, extractSchema env cat visiting t = .ok cat1 →
       JournalProp cat visiting cat1)
    (fun cat visiting fields props => ∀ out,
       extractFields env cat visiting fields props = .ok out →
       JournalProp cat visiting out.1)
  · intro cat visiting cat1 h
    rw [extractSchema_none] at h
    exact absurd h (by simp)
  · intro cat visiting ty hmem cat1 h
    rw [extractSchema_cached env cat visiting ty hmem] at h
    cases h
    exact journalProp_refl cat visiting
  · intro cat visiting ty hmem hvis cat1 h
    rw [extractSchema_visiting env cat visiting ty hmem hvis] at h
    cases h
    exact journalProp_refl cat visiting
  · intro cat visiting p hmem hvis _ _ cat1 h
    rw [extractSchema_prim env cat visiting p hmem hvis] at h
    exact absurd h (by simp)
  · intro cat visiting hmem hvis _ _ cat1 h
    rw [extractSchema_binaryStream env cat visiting hmem hvis] at h
    exact absurd h (by simp)
  · intro cat visiting n hmem hvis fields henv e herr _ _ _ cat1 h
    rw [extractSchema_message_err env cat visiting n fields e hmem hvis henv herr] at h
    exact absurd h (by simp)
  · intro cat visiting n hmem hvis fields henv catF props hok _ _ ih cat1 h
    rw [extractSchema_message_ok env cat visiting n fields catF props hmem hvis henv hok] at h
    cases h
    exact journalProp_message _ (ih (catF, props) hok) hmem hvis
  · intro cat visiting n hmem hvis values henv _ _ cat1 h
    rw [extractSchema_enum env cat visiting n values hmem hvis henv] at h
    cases h
    exact journalProp_insert cat visiting n _ hmem hvis
  · intro cat visiting n hmem hvis henv _ _ cat1 h
    rw [extractSchema_named_unknown env cat visiting n hmem hvis henv] at h
    exact absurd h (by simp)
  · intro cat visiting props out h
    rw [extractFields_nil] at h
    cases h
    exact journalProp_refl cat visiting
  · intro cat visiting props f rest c hc e herr ih out h
    rw [extractFields_composite_err env cat visiting f rest props c e hc herr] at h
    exact absurd h (by simp)
  · intro cat visiting props f rest c hc cat1 hok e herr ih out h
    rw [extractFields_composite_err2 env cat visiting f rest props c cat1 e hc hok herr] at h
    exact absurd h (by simp)
  · intro cat visiting props f rest c hc cat1 hok sref hsref ih1 ih2 out h
    rw [extractFields_composite_ok env cat visiting f rest props c cat1 sref hc hok hsref] at h
    exact journalProp_trans (ih1 cat1 hok) (ih2 out h)
  · intro cat visiting props f rest p hp e herr out h
    rw [extractFields_prim_err env cat visiting f rest props p e hp herr] at h
    exact absurd h (by simp)
  · intro cat visiting props f rest p hp sref hsref ih out h
    rw [extractFields_prim_ok env cat visiting f rest props p sref hp hsref] at h
    exact ih out h

/-- Membership of every primitive name in the primitive name table. -/
theorem primName_mem (p : PrimType) : primName p ∈ primitiveTypesNames := by
  cases p <;> simp [primName, primitiveTypesNames]

/-- Seededness survives catalog growth. -/
theorem seeded_of_journalProp {cat cat1 : Catalog} {visiting : List String}
    (hs : Seeded cat) (h : JournalProp cat visiting cat1) : Seeded cat1 := by
  obtain ⟨new, hk, _, _⟩ := h
  intro s hmem
  rw [hk]
  exact List.mem_append_left _ (hs s hmem)

/-- Schema-or-reference construction never raises over a seeded
catalog. -/
theorem fieldSchemaOrRef_isOk (cat : Catalog) (f : Field) (hs : Seeded cat) :
    ∃ sref, fieldSchemaOrRef cat f = .ok sref := by
  unfold fieldSchemaOrRef getSchemaOrReferenceObject
  by_cases hp : fieldTypeName f ∈ primitiveTypesNames
  · rw [if_pos hp]
    obtain ⟨v, hv⟩ := Option.isSome_iff_exists.mp (lookupJ_isSome_of_mem (hs _ hp))
    rw [hv]
    exact ⟨_, rfl⟩
  · rw [if_neg hp]
    exact ⟨_, rfl⟩

/-- No-raise invariant of the extractor: over a well-formed environment
and a seeded catalog, _ExtractSchema returns normally on every input
whose shape is admissible, and the field pass of _ExtractMessageSchema
returns normally whenever every composite field resolves. -/
theorem extract_noError (env : Env) (hwf : WFEnv env) :
    (∀ cat visiting t, Seeded cat → ShapeOk env cat visiting t →
       isOkE (extractSchema env cat visiting t) = true) ∧
    (∀ cat visiting fields props, Seeded cat →
       (∀ f ∈ fields, ∀ c, f.fieldType = FieldType.composite c →
          (lookupJ env c).isSome = true) →
       isOkE (extractFields env cat visiting fields props) = true) := by
  apply extractSchema.mutual_induct env
    (fun cat visiting t => Seeded cat → ShapeOk env cat visiting t →
       isOkE (extractSchema env cat visiting t) = true)
    (fun cat visiting fields props => Seeded cat →
       (∀ f ∈ fields, ∀ c, f.fieldType = FieldType.composite c →
          (lookupJ env c).isSome = true) →
       isOkE (extractFields env cat visiting fields props) = true)
  · intro cat visiting _ hshape
    exact absurd hshape id
  · intro cat visiting ty hmem _ _
    rw [extractSchema_cached env cat visiting ty hmem]
    rfl
  · intro cat visiting ty hmem hvis _ _
    rw [extractSchema_visiting env cat visiting ty hmem hvis]
    rfl
  · intro cat visiting p hmem hvis _ _ hseed _
    exact absurd (hseed _ (primName_mem p)) hmem
  · intro cat visiting hmem hvis _ _ hseed _
    exact absurd (hseed "BinaryStream" (by simp [primitiveTypesNames])) hmem
  · intro cat visiting n hmem hvis fields henv e herr _ _ ih hseed _
    have hok := ih hseed (fun f hf c hc => hwf n fields henv f hf c hc)
    rw [herr] at hok
    exact absurd hok (by simp [isOkE])
  · intro cat visiting n hmem hvis fields henv cat1 props hok _ _ _ _ _
    rw [extractSchema_message_ok env cat visiting n fields cat1 props hmem hvis henv hok]
    rfl
  · intro cat visiting n hmem hvis values henv _ _ _ _
    rw [extractSchema_enum env cat visiting n values hmem hvis henv]
    rfl
  · intro cat visiting n hmem hvis henv _ _ _ hshape
    rcases hshape with h | h | ⟨m, hm, hsome⟩
    · exact absurd h hmem
    · exact absurd h hvis
    · cases hm
      rw [henv] at hsome
      simp at hsome
  · intro cat visiting props _ _
    rw [extractFields_nil]
    rfl
  · intro cat visiting props f rest c hc e herr ih hseed hres
    have hok := ih hseed (Or.inr (Or.inr ⟨c, rfl, hres f (List.mem_cons_self f rest) c hc⟩))
    rw [herr] at hok
    exact absurd hok (by simp [isOkE])
  · intro cat visiting props f rest c hc cat1 hok e herr ih hseed hres
    have hseed1 : Seeded cat1 :=
      seeded_of_journalProp hseed ((extract_journal env).1 cat visiting _ cat1 hok)
    obtain ⟨sref, hsref⟩ := fieldSchemaOrRef_isOk cat1 f hseed1
    rw [hsref] at herr
    exact absurd herr (by simp)
  · intro cat visiting props f rest c hc cat1 hok sref hsref _ ih2 hseed hres
    rw [extractFields_composite_ok env cat visiting f rest props c cat1 sref hc hok hsref]
    have hseed1 : Seeded cat1 :=
      seeded_of_journalProp hseed ((extract_journal env).1 cat visiting _ cat1 hok)
    exact ih2 hseed1 (fun g hg d hd => hres g (List.mem_cons_of_mem f hg) d hd)
  · intro cat visiting props f rest p hp e herr hseed hres
    obtain ⟨sref, hsref⟩ := fieldSchemaOrRef_isOk cat f hseed
    rw [hsref] at herr
    exact absurd herr (by simp)
  · intro cat visiting props f rest p hp sref hsref ih hseed hres
    rw [extractFields_prim_ok env cat visiting f rest props p sref hp hsref]
    exact ih hseed (fun g hg d hd => hres g (List.mem_cons_of_mem f hg) d hd)

/-- Nodup keys are preserved by every successful extractor run. -/
theorem extract_preserves_nodup {env : Env} {cat : Catalog} {visiting : List String}
    {t : Option STy} {cat1 : Catalog}
    (h : extractSchema env cat visiting t = .ok cat1) (hnd : (keysJ cat).Nodup) :
    (keysJ cat1).Nodup := by
  obtain ⟨new, hk, hndn, hf⟩ := (extract_journal env).1 cat visiting t cat1 h
  rw [hk, List.nodup_append]
  exact ⟨hnd, hndn, fun x hx1 hx2 => (hf x hx2).2 hx1⟩

/-- Nodup keys are preserved by the args-type extraction of one method. -/
theorem extractArgsTypeSchema_nodup {env : Env} {cat : Catalog} {a : Option ArgsType}
    {cat1 : Catalog} (h : extractArgsTypeSchema env cat a = .ok cat1)
    (hnd : (keysJ cat).Nodup) : (keysJ cat1).Nodup := by
  cases a with
  | none =>
    simp only [extractArgsTypeSchema] at h
    cases h
    exact hnd
  | some a0 =>
    cases a0 with
    | rdfStruct n => exact extract_preserves_nodup h hnd
    | other s => exact extract_preserves_nodup h hnd

/-- Nodup keys are preserved by the result-type extraction of one
method. -/
theorem extractResultTypeSchema_nodup {env : Env} {cat : Catalog} {r : Option RType}
    {cat1 : Catalog} (h : extractResultTypeSchema env cat r = .ok cat1)
    (hnd : (keysJ cat).Nodup) : (keysJ cat1).Nodup := by
  cases r with
  | none =>
    simp only [extractResultTypeSchema] at h
    cases h
    exact hnd
  | some r0 =>
    cases r0 with
    | rdfStruct n => exact extract_preserves_nodup h hnd
    | binaryStream => exact extract_preserves_nodup h hnd

/-- Nodup keys are preserved by the whole method loop of
_ExtractSchemas. -/
theorem extractSchemasLoop_nodup {env : Env} (registry : Registry) :
    ∀ cat cat1, extractSchemasLoop env cat registry = .ok cat1 →
      (keysJ cat).Nodup → (keysJ cat1).Nodup := by
  induction registry with
  | nil =>
    intro cat cat1 h hnd
    simp only [extractSchemasLoop] at h
    cases h
    exact hnd
  | cons m rest ih =>
    intro cat cat1 h hnd
    simp only [extractSchemasLoop] at h
    cases ha : extractArgsTypeSchema env cat m.argsType with
    | error e => rw [ha] at h; exact absurd h (by simp)
    | ok catA =>
      rw [ha] at h
      dsimp only at h
      cases hr : extractResultTypeSchema env catA m.resultType with
      | error e => rw [hr] at h; exact absurd h (by simp)
      | ok catR =>
        rw [hr] at h
        exact ih catR cat1 h
          (extractResultTypeSchema_nodup hr (extractArgsTypeSchema_nodup ha hnd))

/-- Nodup keys of the full catalog of _ExtractSchemas. -/
theorem extractSchemas_nodup {env : Env} {registry : Registry} {cat1 : Catalog}
    (h : extractSchemas env registry = .ok cat1) : (keysJ cat1).Nodup :=
  extractSchemasLoop_nodup registry _ cat1 h (by decide)

/-- Strict decrease of the recursion measure of _ExtractSchema: adding an
unvisited defined name to the visiting set strictly shrinks the set of
defined names that may still be expanded. -/
theorem card_sdiff_cons_lt (env : Env) (visiting : List String) (n : String)
    (hdom : n ∈ domainF env) (hv : n ∉ visiting) :
    (domainF env \ (n :: visiting).toFinset).card <
      (domainF env \ visiting.toFinset).card := by
  apply Finset.card_lt_card
  constructor
  · apply Finset.sdiff_subset_sdiff le_rfl
    intro x hx
    simp only [List.toFinset_cons, Finset.mem_insert]
    right
    exact hx
  · intro hsub
    have hn : n ∈ domainF env \ visiting.toFinset :=
      Finset.mem_sdiff.mpr ⟨hdom, by simpa using hv⟩
    have hcontra := hsub hn
    simp at hcontra

/-- C8: for each of the 15 primitive wire-type codes and the raw-stream
marker, the pre-seeded catalog entry is exactly the expected type and
format fragment: double is number/double, float is number/float, the
int64 family is integer/int64, the uint64 family is integer/uint64, the
int32 family is integer/int32, the uint32 family is integer/uint32, bool
is boolean with no format key, string is string with no format key, and
bytes and BinaryStream are string/binary. -/
theorem c8_primitive_schemas_exact :
    lookupJ primCat (primName .double) =
      some (.obj [("type", .str "number"), ("format", .str "double")]) ∧
    lookupJ primCat (primName .float) =
      some (.obj [("type", .str "number"), ("format", .str "float")]) ∧
    lookupJ primCat (primName .int64) =
      some (.obj [("type", .str "integer"), ("format", .str "int64")]) ∧
    lookupJ primCat (primName .uint64) =
      some (.obj [("type", .str "integer"), ("format", .str "uint64")]) ∧
    lookupJ primCat (primName .int32) =
      some (.obj [("type", .str "integer"), ("format", .str "int32")]) ∧
    lookupJ primCat (primName .fixed64) =
      some (.obj [("type", .str "integer"), ("format", .str "uint64")]) ∧
    lookupJ primCat (primName .fixed32) =
      some (.obj [("type", .str "integer"), ("format", .str "uint32")]) ∧
    lookupJ primCat (primName .bool) =
      some (.obj [("type", .str "boolean")]) ∧
    lookupJ primCat (primName .string) =
      some (.obj [("type", .str "string")]) ∧
    lookupJ primCat (primName .bytes) =
      some (.obj [("type", .str "string"), ("format", .str "binary")]) ∧
    lookupJ primCat (primName .uint32) =
      some (.obj [("type", .str "integer"), ("format", .str "uint32")]) ∧
    lookupJ primCat (primName .sfixed32) =
      some (.obj [("type", .str "integer"), ("format", .str "int32")]) ∧
    lookupJ primCat (primName .sfixed64) =
      some (.obj [("type", .str "integer"), ("format", .str "int64")]) ∧
    lookupJ primCat (primName .sint32) =
      some (.obj [("type", .str "integer"), ("format", .str "int32")]) ∧
    lookupJ primCat (primName .sint64) =
      some (.obj [("type", .str "integer"), ("format", .str "int64")]) ∧
    lookupJ primCat "BinaryStream" =
      some (.obj [("type", .str "string"), ("format", .str "binary")]) :=
  ⟨rfl, rfl, rfl, rfl, rfl, rfl, rfl, rfl, rfl, rfl, rfl, rfl, rfl, rfl, rfl, rfl⟩

/-- C2: schema extraction terminates on every type graph, cyclic ones
included.  The extractor is a total function whose recursion is measured
by the first conjunct: pushing an unvisited defined name onto the
visiting set strictly shrinks the set of defined names that may still be
recursed into, so recursion depth is bounded by the number of distinct
type names.  The second conjunct states that no type name ever gains a
duplicate entry in the catalog: every successful run preserves
distinctness of the catalog keys. -/
theorem c2_cycle_safe_termination_and_no_duplicates :
    (∀ env : Env, ∀ visiting : List String, ∀ n : String,
       n ∈ domainF env → n ∉ visiting →
       (domainF env \ (n :: visiting).toFinset).card <
         (domainF env \ visiting.toFinset).card) ∧
    (∀ env : Env, ∀ cat : Catalog, ∀ visiting : List String, ∀ t : Option STy,
       ∀ cat1 : Catalog, extractSchema env cat visiting t = .ok cat1 →
       (keysJ cat).Nodup → (keysJ cat1).Nodup) :=
  ⟨fun env visiting n hdom hv => card_sdiff_cons_lt env visiting n hdom hv,
   fun _ _ _ _ _ h hnd => extract_preserves_nodup h hnd⟩

/-- Witness for C2 on a cyclic graph: message A references message B
which references A back; the extraction terminates with the expected
catalog and keeps the catalog keys duplicate-free. -/
theorem c2_witness :
    ("A" ∈ domainF envAB ∧ "A" ∉ ([] : List String) ∧
      (domainF envAB \ (("A" :: ([] : List String))).toFinset).card <
        (domainF envAB \ ([] : List String).toFinset).card) ∧
    (extractSchema envAB primCat [] (some (.named "A")) = .ok catAB ∧
      (keysJ primCat).Nodup ∧ (keysJ catAB).Nodup) := by
  have hextract : extractSchema envAB primCat [] (some (.named "A")) = .ok catAB := by
    simp [extractSchema, extractFields, envAB, primCat, catAB, lookupJ, keysJ,
          addPrimitiveTypesSchemas, primitiveSchemas, primName, styName,
          fieldSchemaOrRef, getSchemaOrReferenceObject, fieldTypeName,
          primitiveTypesNames, insertJ, messageSchema, refObject, wrapArray]
  constructor
  · exact ⟨by decide, by decide,
      c2_cycle_safe_termination_and_no_duplicates.1 envAB [] "A" (by decide) (by decide)⟩
  · exact ⟨hextract, by decide,
      c2_cycle_safe_termination_and_no_duplicates.2 envAB primCat [] (some (.named "A"))
        catAB hextract (by decide)⟩

/-- Counterexample to C3: extracting the self-referential message A of
envA yields a schema whose properties DO contain the back-edge field
self_ref, bound to a reference object pointing at A, rather than leaving
the field silently missing as the claim states. -/
theorem c3_counterexample :
    extractSchema envA primCat [] (some (.named "A")) =
      .ok (insertJ primCat "A" (.obj [("type", .str "object"),
        ("properties", .obj [("self_ref", refObject "A")])])) := by
  simp [extractSchema, extractFields, envA, primCat, lookupJ, keysJ,
        addPrimitiveTypesSchemas, primitiveSchemas, primName, styName,
        fieldSchemaOrRef, getSchemaOrReferenceObject, fieldTypeName,
        primitiveTypesNames, insertJ, messageSchema, refObject, wrapArray]

/-- C3 amended: on a back-edge (a composite field whose referenced name
is currently in the visiting set and not yet in the catalog), the builder
does not recurse and leaves the catalog unchanged, but the referencing
field is NOT left unset: its property is still emitted as a reference
object to the ancestor's stable name (array-wrapped when the field is
repeated), which resolves once the ancestor's expansion completes. -/
theorem c3_amended_backedge_skips_recursion_but_emits_reference
    (env : Env) (cat : Catalog) (visiting : List String) (f : Field)
    (rest : List Field) (props : List (String × JVal)) (c : String)
    (hc : f.fieldType = .composite c) (hvis : c ∈ visiting)
    (hcat : c ∉ keysJ cat) (hprim : c ∉ primitiveTypesNames) :
    extractSchema env cat visiting (some (.named c)) = .ok cat ∧
    extractFields env cat visiting (f :: rest) props =
      extractFields env cat visiting rest
        (props ++ [(f.name, wrapArray f.repeated (refObject c))]) := by
  have hs : extractSchema env cat visiting (some (.named c)) = .ok cat :=
    extractSchema_visiting env cat visiting _ hcat hvis
  refine ⟨hs, ?_⟩
  have hr : fieldSchemaOrRef cat f = .ok (wrapArray f.repeated (refObject c)) := by
    unfold fieldSchemaOrRef getSchemaOrReferenceObject
    simp only [fieldTypeName, hc]
    rw [if_neg hprim]
  exact extractFields_composite_ok env cat visiting f rest props c cat _ hc hs hr

/-- Witness for the amended C3 at the self-referential message of envA,
mid-expansion of A. -/
theorem c3_amended_witness :
    selfRefField.fieldType = FieldType.composite "A" ∧
    "A" ∈ ["A"] ∧ "A" ∉ keysJ primCat ∧ "A" ∉ primitiveTypesNames ∧
    (extractSchema envA primCat ["A"] (some (.named "A")) = .ok primCat ∧
     extractFields envA primCat ["A"] [selfRefField] [] =
       extractFields envA primCat ["A"] []
         ([] ++ [(selfRefField.name, wrapArray selfRefField.repeated (refObject "A"))])) :=
  ⟨rfl, by decide, by decide, by decide,
   c3_amended_backedge_skips_recursion_but_emits_reference envA primCat ["A"]
     selfRefField [] [] "A" rfl (by decide) (by decide) (by decide)⟩

/-- C4: the catalog binds each composite name exactly once.  First
conjunct: extraction short-circuits on a name already in the catalog,
leaving the catalog unchanged, so a type is expanded at most once no
matter how many methods or fields reference it.  Second conjunct: the
composite-only components.schemas table of any completed _ExtractSchemas
run has duplicate-free keys, each occurring exactly once.  Third
conjunct: the schema-or-reference object of any non-primitive name is a
reference object pointing into components/schemas, never an inline
fragment. -/
theorem c4_single_binding_and_refs :
    (∀ env : Env, ∀ cat : Catalog, ∀ visiting : List String, ∀ ty : STy,
       styName ty ∈ keysJ cat → extractSchema env cat visiting (some ty) = .ok cat) ∧
    (∀ env : Env, ∀ registry : Registry, ∀ cat1 : Catalog,
       extractSchemas env registry = .ok cat1 →
       (keysJ (setComponentsSchemas cat1)).Nodup ∧
       ∀ nm ∈ keysJ (setComponentsSchemas cat1),
         (keysJ (setComponentsSchemas cat1)).count nm = 1) ∧
    (∀ cat : Catalog, ∀ nm : String, nm ∉ primitiveTypesNames →
       getSchemaOrReferenceObject cat nm false = .ok (refObject nm)) := by
  refine ⟨fun env cat visiting ty h => extractSchema_cached env cat visiting ty h, ?_, ?_⟩
  · intro env registry cat1 h
    have hnd : (keysJ cat1).Nodup := extractSchemas_nodup h
    have hsub : List.Sublist (keysJ (setComponentsSchemas cat1)) (keysJ cat1) :=
      List.Sublist.map Prod.fst (List.filter_sublist cat1)
    have hnd2 : (keysJ (setComponentsSchemas cat1)).Nodup := List.Nodup.sublist hsub hnd
    exact ⟨hnd2, fun nm hm => List.count_eq_one_of_mem hnd2 hm⟩
  · intro cat nm h
    unfold getSchemaOrReferenceObject
    rw [if_neg h]
    rfl

/-- Router method used by concrete witnesses: its args type references
message A of envAB and its result type references B, which A's expansion
has already extracted. -/
def demoMethod : Method :=
  { name := "GetFoo", category := some "Foo", doc := some "Gets foo.",
    httpMethods := [("GET", "/foo/<client_id>/bar", false)],
    argsType := some (.rdfStruct "A"), resultType := some (.rdfStruct "B") }

/-- Witness for C4: extracting the registry of demoMethod over envAB
expands B exactly once although both A's field and the method's result
type reference it, and B is referenced through a reference object. -/
theorem c4_witness :
    styName STy.binaryStream ∈ keysJ primCat ∧
    extractSchema envAB primCat [] (some .binaryStream) = .ok primCat ∧
    (extractSchemas envAB [demoMethod] = .ok catAB ∧
      (keysJ (setComponentsSchemas catAB)).Nodup ∧
      (keysJ (setComponentsSchemas catAB)).count "B" = 1) ∧
    ("B" ∉ primitiveTypesNames ∧
      getSchemaOrReferenceObject catAB "B" false = .ok (refObject "B")) := by
  have hx : extractSchemas envAB [demoMethod] = .ok catAB := by
    simp [extractSchemas, extractSchemasLoop, extractArgsTypeSchema,
          extractResultTypeSchema, demoMethod,
          extractSchema, extractFields, envAB, primCat, catAB, lookupJ, keysJ,
          addPrimitiveTypesSchemas, primitiveSchemas, primName, styName,
          fieldSchemaOrRef, getSchemaOrReferenceObject, fieldTypeName,
          primitiveTypesNames, insertJ, messageSchema, refObject, wrapArray]
  refine ⟨by decide,
    c4_single_binding_and_refs.1 envAB primCat [] .binaryStream (by decide),
    ⟨hx, (c4_single_binding_and_refs.2.1 envAB [demoMethod] catAB hx).1,
      (c4_single_binding_and_refs.2.1 envAB [demoMethod] catAB hx).2 "B" (by decide)⟩,
    by decide,
    c4_single_binding_and_refs.2.2 catAB "B" (by decide)⟩

/-- C6: over a well-formed environment and a seeded catalog,
_ExtractSchema raises a ValueError exactly on an absent type; raises a
TypeError exactly on a present named type that is neither cached, nor
mid-expansion, nor defined as a message or enum (the primitive codes and
the raw-stream marker are always cached because the catalog pre-seeds
all primitives); and returns without raising in every other case. -/
theorem c6_error_conditions (env : Env) (cat : Catalog) (visiting : List String)
    (t : Option STy) (hwf : WFEnv env) (hs : Seeded cat) :
    (resultValueError (extractSchema env cat visiting t) = true ↔ t = none) ∧
    (resultTypeError (extractSchema env cat visiting t) = true ↔
      ∃ n, t = some (.named n) ∧ n ∉ keysJ cat ∧ n ∉ visiting ∧ lookupJ env n = none) ∧
    (isOkE (extractSchema env cat visiting t) = true ↔
      (t ≠ none ∧
       ¬∃ n, t = some (.named n) ∧ n ∉ keysJ cat ∧ n ∉ visiting ∧ lookupJ env n = none)) := by
  cases t with
  | none =>
    rw [extractSchema_none]
    refine ⟨⟨fun _ => rfl, fun _ => rfl⟩,
            ⟨fun h => (nomatch h), ?_⟩,
            ⟨fun h => (nomatch h), fun h => absurd rfl h.1⟩⟩
    rintro ⟨n, hn, -⟩
    exact nomatch hn
  | some ty =>
    by_cases hmem : styName ty ∈ keysJ cat
    · rw [extractSchema_cached env cat visiting ty hmem]
      refine ⟨⟨fun h => (nomatch h), fun h => nomatch h⟩,
              ⟨fun h => (nomatch h), ?_⟩,
              ⟨fun _ => ⟨fun h => (nomatch h), ?_⟩, fun _ => rfl⟩⟩
      · rintro ⟨n, hn, hcat, -, -⟩
        cases hn
        exact absurd hmem hcat
      · rintro ⟨n, hn, hcat, -, -⟩
        cases hn
        exact absurd hmem hcat
    · by_cases hvis : styName ty ∈ visiting
      · rw [extractSchema_visiting env cat visiting ty hmem hvis]
        refine ⟨⟨fun h => (nomatch h), fun h => nomatch h⟩,
                ⟨fun h => (nomatch h), ?_⟩,
                ⟨fun _ => ⟨fun h => (nomatch h), ?_⟩, fun _ => rfl⟩⟩
        · rintro ⟨n, hn, -, hv, -⟩
          cases hn
          exact absurd hvis hv
        · rintro ⟨n, hn, -, hv, -⟩
          cases hn
          exact absurd hvis hv
      · cases ty with
        | prim p => exact absurd (hs _ (primName_mem p)) hmem
        | binaryStream =>
          exact absurd (hs "BinaryStream" (by simp [primitiveTypesNames])) hmem
        | named n =>
          cases henv : lookupJ env n with
          | none =>
            rw [extractSchema_named_unknown env cat visiting n hmem hvis henv]
            refine ⟨⟨fun h => (nomatch h), fun h => nomatch h⟩,
                    ⟨fun _ => ⟨n, rfl, hmem, hvis, henv⟩, fun _ => rfl⟩,
                    ⟨fun h => (nomatch h), ?_⟩⟩
            intro h
            exact absurd ⟨n, rfl, hmem, hvis, henv⟩ h.2
          | some d =>
            have hok : isOkE (extractSchema env cat visiting (some (.named n))) = true :=
              (extract_noError env hwf).1 cat visiting (some (.named n)) hs
                (Or.inr (Or.inr ⟨n, rfl, by rw [henv]; rfl⟩))
            obtain ⟨c1, hc1⟩ :
                ∃ c1, extractSchema env cat visiting (some (.named n)) = .ok c1 := by
              cases hr : extractSchema env cat visiting (some (.named n)) with
              | error e => rw [hr] at hok; exact absurd hok (by simp [isOkE])
              | ok c1 => exact ⟨c1, rfl⟩
            rw [hc1]
            refine ⟨⟨fun h => (nomatch h), fun h => nomatch h⟩,
                    ⟨fun h => (nomatch h), ?_⟩,
                    ⟨fun _ => ⟨fun h => (nomatch h), ?_⟩, fun _ => rfl⟩⟩
            · rintro ⟨m, hm, -, -, hnone⟩
              cases hm
              rw [henv] at hnone
              exact nomatch hnone
            · rintro ⟨m, hm, -, -, hnone⟩
              cases hm
              rw [henv] at hnone
              exact nomatch hnone

/-- Witness for C6 over the empty environment and the seeded catalog: the
unknown name X, which is neither cached nor mid-expansion nor defined,
raises exactly a TypeError. -/
theorem c6_witness :
    WFEnv ([] : Env) ∧ Seeded primCat ∧
    (resultTypeError (extractSchema [] primCat [] (some (.named "X"))) = true ↔
      ∃ n, (some (STy.named "X") : Option STy) = some (.named n) ∧
        n ∉ keysJ primCat ∧ n ∉ ([] : List String) ∧ lookupJ ([] : Env) n = none) := by
  have hwf : WFEnv ([] : Env) := by
    intro n fields h
    simp [lookupJ] at h
  have hs : Seeded primCat := by
    unfold Seeded
    decide
  exact ⟨hwf, hs, (c6_error_conditions [] primCat [] (some (.named "X")) hwf hs).2.1⟩

/-- C7: parameter classification.  A field named in the path-parameter
set goes to the path group regardless of the HTTP verb and its Parameter
Object is marked in: path and required: true; any other field goes to the
query group exactly when the verb is GET or HEAD, with an in: query
Parameter Object and no required flag; otherwise it goes to the body
group and surfaces as a property of the request-body schema. -/
theorem c7_parameter_classification (fields : List Field) (pathArgs : List String)
    (httpMethod : String) (f : Field) (hf : f ∈ fields) :
    (f.name ∈ pathArgs → f ∈ (triageFields fields pathArgs httpMethod).1) ∧
    (f.name ∉ pathArgs → strUpper httpMethod ∈ ["GET", "HEAD"] →
       f ∈ (triageFields fields pathArgs httpMethod).2.1) ∧
    (f.name ∉ pathArgs → strUpper httpMethod ∉ ["GET", "HEAD"] →
       f ∈ (triageFields fields pathArgs httpMethod).2.2) ∧
    (∀ cat : Catalog, ∀ pathParams : List Field, ∀ sref : JVal,
       fieldSchemaOrRef cat f = .ok sref → f ∈ pathParams →
       mkParameterObj cat pathParams f =
         .ok (.obj [("name", .str f.name), ("in", .str "path"),
                    ("required", .bool true), ("schema", sref)])) ∧
    (∀ cat : Catalog, ∀ pathParams : List Field, ∀ sref : JVal,
       fieldSchemaOrRef cat f = .ok sref → f ∉ pathParams →
       mkParameterObj cat pathParams f =
         .ok (.obj [("name", .str f.name), ("in", .str "query"), ("schema", sref)])) ∧
    (∀ cat : Catalog, ∀ bodyParams : List Field, ∀ props : List (String × JVal),
       ∀ sref : JVal, f ∈ bodyParams → fieldSchemaOrRef cat f = .ok sref →
       requestBodyProperties cat bodyParams = .ok props → (f.name, sref) ∈ props) := by
  refine ⟨?_, ?_, ?_, ?_, ?_, ?_⟩
  · intro hp
    induction fields with
    | nil => cases hf
    | cons g rest ih =>
      rw [triageFields]
      rcases List.mem_cons.mp hf with hfg | hfr
      · subst hfg
        rw [if_pos hp]
        exact List.mem_cons_self _ _
      · by_cases hg : g.name ∈ pathArgs
        · rw [if_pos hg]
          exact List.mem_cons_of_mem _ (ih hfr)
        · rw [if_neg hg]
          by_cases hm : strUpper httpMethod ∈ ["GET", "HEAD"]
          · rw [if_pos hm]
            exact ih hfr
          · rw [if_neg hm]
            exact ih hfr
  · intro hp hm
    induction fields with
    | nil => cases hf
    | cons g rest ih =>
      rw [triageFields]
      rcases List.mem_cons.mp hf with hfg | hfr
      · subst hfg
        rw [if_neg hp, if_pos hm]
        exact List.mem_cons_self _ _
      · by_cases hg : g.name ∈ pathArgs
        · rw [if_pos hg]
          exact ih hfr
        · rw [if_neg hg, if_pos hm]
          exact List.mem_cons_of_mem _ (ih hfr)
  · intro hp hm
    induction fields with
    | nil => cases hf
    | cons g rest ih =>
      rw [triageFields]
      rcases List.mem_cons.mp hf with hfg | hfr
      · subst hfg
        rw [if_neg hp, if_neg hm]
        exact List.mem_cons_self _ _
      · by_cases hg : g.name ∈ pathArgs
        · rw [if_pos hg]
          exact ih hfr
        · rw [if_neg hg]
          by_cases hm2 : strUpper httpMethod ∈ ["GET", "HEAD"]
          · rw [if_pos hm2]
            exact ih hfr
          · rw [if_neg hm2]
            exact List.mem_cons_of_mem _ (ih hfr)
  · intro cat pathParams sref hsref hmem
    unfold mkParameterObj
    rw [hsref]
    dsimp only
    rw [if_pos hmem]
  · intro cat pathParams sref hsref hmem
    unfold mkParameterObj
    rw [hsref]
    dsimp only
    rw [if_neg hmem]
  · intro cat bodyParams
    clear hf
    induction bodyParams with
    | nil =>
      intro props sref hmem hsref hprops
      cases hmem
    | cons g rest ih =>
      intro props sref hmem hsref hprops
      rw [requestBodyProperties] at hprops
      cases hg : fieldSchemaOrRef cat g with
      | error e => rw [hg] at hprops; exact absurd hprops (by simp)
      | ok s =>
        rw [hg] at hprops
        dsimp only at hprops
        cases hrest : requestBodyProperties cat rest with
        | error e => rw [hrest] at hprops; exact absurd hprops (by simp)
        | ok ps =>
          rw [hrest] at hprops
          dsimp only at hprops
          cases hprops
          rcases List.mem_cons.mp hmem with hfg | hfr
          · subst hfg
            rw [hsref] at hg
            cases hg
            exact List.mem_cons_self _ _
          · exact List.mem_cons_of_mem _ (ih ps sref hfr hsref hrest)

/-- Witness for C7 on the spec's example: fields client_id, offset and
count with path-parameter set containing client_id.  Under GET, client_id
is a path parameter marked required and offset is a query parameter;
under POST, offset lands in the body group and becomes a request-body
property. -/
theorem c7_witness :
    (clientIdField.name ∈ ["client_id"] ∧
      clientIdField ∈ (triageFields demoFields ["client_id"] "GET").1) ∧
    (offsetField.name ∉ ["client_id"] ∧ strUpper "GET" ∈ ["GET", "HEAD"] ∧
      offsetField ∈ (triageFields demoFields ["client_id"] "GET").2.1) ∧
    (offsetField.name ∉ ["client_id"] ∧ strUpper "POST" ∉ ["GET", "HEAD"] ∧
      offsetField ∈ (triageFields demoFields ["client_id"] "POST").2.2) ∧
    (mkParameterObj primCat [clientIdField] clientIdField =
      .ok (.obj [("name", .str clientIdField.name), ("in", .str "path"),
                 ("required", .bool true),
                 ("schema", .obj [("type", .str "string")])])) ∧
    (mkParameterObj primCat [clientIdField] offsetField =
      .ok (.obj [("name", .str offsetField.name), ("in", .str "query"),
                 ("schema", .obj [("type", .str "integer"), ("format", .str "int64")])])) ∧
    ((offsetField.name, JVal.obj [("type", .str "integer"), ("format", .str "int64")]) ∈
      [(offsetField.name, JVal.obj [("type", .str "integer"), ("format", .str "int64")]),
       (countField.name, JVal.obj [("type", .str "integer"), ("format", .str "int64")])]) := by
  refine ⟨⟨by decide, ?_⟩, ⟨by decide, by decide, ?_⟩, ⟨by decide, by decide, ?_⟩, ?_, ?_, ?_⟩
  · exact (c7_parameter_classification demoFields ["client_id"] "GET" clientIdField
      (by decide)).1 (by decide)
  · exact (c7_parameter_classification demoFields ["client_id"] "GET" offsetField
      (by decide)).2.1 (by decide) (by decide)
  · exact (c7_parameter_classification demoFields ["client_id"] "POST" offsetField
      (by decide)).2.2.1 (by decide) (by decide)
  · exact (c7_parameter_classification demoFields ["client_id"] "GET" clientIdField
      (by decide)).2.2.2.1 primCat [clientIdField]
      (.obj [("type", .str "string")]) rfl (by decide)
  · exact (c7_parameter_classification demoFields ["client_id"] "GET" offsetField
      (by decide)).2.2.2.2.1 primCat [clientIdField]
      (.obj [("type", .str "integer"), ("format", .str "int64")]) rfl (by decide)
  · exact (c7_parameter_classification demoFields ["client_id"] "POST" offsetField
      (by decide)).2.2.2.2.2 primCat [offsetField, countField]
      [(offsetField.name, .obj [("type", .str "integer"), ("format", .str "int64")]),
       (countField.name, .obj [("type", .str "integer"), ("format", .str "int64")])]
      (.obj [("type", .str "integer"), ("format", .str "int64")])
      (by decide) rfl rfl

/-- Keys of a dict concatenation. -/
theorem keysJ_append {α : Type} (a b : List (String × α)) :
    keysJ (a ++ b) = keysJ a ++ keysJ b := by
  simp [keysJ]

/-- Seededness of the catalog right after _AddPrimitiveTypesSchemas. -/
theorem seeded_primCat : Seeded primCat := by
  unfold Seeded
  decide

/-- C9: a method whose result type is the raw-stream marker gets a 200
response whose content map is keyed by the octet-stream media type and
whose schema is the raw-stream primitive fragment (string/binary); a
method with any other present result type gets a content map keyed by the
JSON media type. -/
theorem c9_raw_stream_response (rest : Catalog) (methodName : String) :
    (getResponseObject200 (primCat ++ rest) (some .binaryStream) methodName =
      .ok (.obj [("description", .str ("The call to the " ++ methodName ++
          " API method succeeded and it returned an instance of " ++
          "BinaryStream" ++ ".")),
        ("content", .obj [("application/octet-stream",
          .obj [("schema", .obj [("type", .str "string"),
                                 ("format", .str "binary")])])])])) ∧
    (∀ n : String, Except.map responseContentKeys
        (getResponseObject200 (primCat ++ rest) (some (.rdfStruct n)) methodName) =
      .ok ["application/json"]) := by
  constructor
  · rfl
  · intro n
    unfold getResponseObject200 resultTypeName
    dsimp only
    by_cases hp : n ∈ primitiveTypesNames
    · have hmem2 : n ∈ keysJ (primCat ++ rest) := by
        rw [keysJ_append]
        exact List.mem_append_left _ (seeded_primCat n hp)
      obtain ⟨v, hv⟩ := Option.isSome_iff_exists.mp (lookupJ_isSome_of_mem hmem2)
      have hso : getSchemaOrReferenceObject (primCat ++ rest) n false = .ok v := by
        unfold getSchemaOrReferenceObject
        rw [if_pos hp, hv]
        rfl
      rw [hso]
      dsimp only
      simp [responseContentKeys, lookupJ, keysJ, Except.map]
    · have hso : getSchemaOrReferenceObject (primCat ++ rest) n false =
          .ok (refObject n) := by
        unfold getSchemaOrReferenceObject
        rw [if_neg hp]
        rfl
      rw [hso]
      dsimp only
      simp [responseContentKeys, lookupJ, keysJ, Except.map]

/-- C10: a repeated field's emitted schema is always the array wrapper
around the schema-or-reference object of its element type, and a
non-repeated field's schema is that object itself.  The first conjunct
characterizes the shared helper fieldSchemaOrRef, which is the exclusive
producer of field schemas; the remaining conjuncts restate its use at the
three emission sites: the message property of _ExtractMessageSchema, the
parameter schema of _GetParameters, and the request-body property of
_GetRequestBody. -/
theorem c10_repeated_array_wrapper (cat : Catalog) (f : Field) :
    (fieldSchemaOrRef cat f =
      (if f.repeated = true then
        Except.map (fun s => JVal.obj [("type", .str "array"), ("items", s)])
          (getSchemaOrReferenceObject cat (fieldTypeName f) false)
      else getSchemaOrReferenceObject cat (fieldTypeName f) false)) ∧
    (∀ env : Env, ∀ visiting : List String, ∀ rest : List Field,
       ∀ props : List (String × JVal), ∀ p : PrimType,
       f.fieldType = FieldType.prim p → ∀ sref : JVal,
       fieldSchemaOrRef cat f = .ok sref →
       extractFields env cat visiting (f :: rest) props =
         extractFields env cat visiting rest (props ++ [(f.name, sref)])) ∧
    (∀ pathParams : List Field, ∀ sref : JVal, fieldSchemaOrRef cat f = .ok sref →
       mkParameterObj cat pathParams f =
         .ok (.obj ((if f ∈ pathParams then
             [("name", .str f.name), ("in", .str "path"), ("required", .bool true)]
           else [("name", .str f.name), ("in", .str "query")]) ++ [("schema", sref)]))) ∧
    (∀ rest : List Field, ∀ props : List (String × JVal), ∀ sref : JVal,
       fieldSchemaOrRef cat f = .ok sref → requestBodyProperties cat rest = .ok props →
       requestBodyProperties cat (f :: rest) = .ok ((f.name, sref) :: props)) := by
  refine ⟨?_, ?_, ?_, ?_⟩
  · unfold fieldSchemaOrRef getSchemaOrReferenceObject wrapArray
    by_cases hp : fieldTypeName f ∈ primitiveTypesNames
    · cases hl : lookupJ cat (fieldTypeName f) with
      | none => cases hr : f.repeated <;> simp [hp, hl, hr, Except.map]
      | some v => cases hr : f.repeated <;> simp [hp, hl, hr, Except.map]
    · cases hr : f.repeated <;> simp [hp, hr, Except.map]
  · intro env visiting rest props p hp sref hsref
    exact extractFields_prim_ok env cat visiting f rest props p sref hp hsref
  · intro pathParams sref hsref
    unfold mkParameterObj
    rw [hsref]
    dsimp only
    by_cases hm : f ∈ pathParams
    · rw [if_pos hm, if_pos hm]
      rfl
    · rw [if_neg hm, if_neg hm]
      rfl
  · intro rest props sref hsref hprops
    rw [requestBodyProperties, hsref]
    dsimp only
    rw [hprops]

/-- Repeated primitive field used by the C10 witness. -/
def numsRepField : Field := ⟨"nums", .prim .int64, true⟩

/-- Witness for C10 on a repeated int64 field over the seeded catalog:
its emitted schema is the array wrapper of the int64 fragment in all
three emission contexts. -/
theorem c10_witness :
    (fieldSchemaOrRef primCat numsRepField =
      (if numsRepField.repeated = true then
        Except.map (fun s => JVal.obj [("type", .str "array"), ("items", s)])
          (getSchemaOrReferenceObject primCat (fieldTypeName numsRepField) false)
      else getSchemaOrReferenceObject primCat (fieldTypeName numsRepField) false)) ∧
    (extractFields [] primCat [] [numsRepField] [] =
      extractFields [] primCat [] []
        ([] ++ [("nums", JVal.obj [("type", .str "array"),
          ("items", .obj [("type", .str "integer"), ("format", .str "int64")])])])) ∧
    (mkParameterObj primCat [] numsRepField =
      .ok (.obj ((if numsRepField ∈ ([] : List Field) then
          [("name", .str numsRepField.name), ("in", .str "path"),
           ("required", .bool true)]
        else [("name", .str numsRepField.name), ("in", .str "query")]) ++
        [("schema", JVal.obj [("type", .str "array"),
          ("items", .obj [("type", .str "integer"), ("format", .str "int64")])])]))) ∧
    (requestBodyProperties primCat [numsRepField] =
      .ok [("nums", JVal.obj [("type", .str "array"),
        ("items", .obj [("type", .str "integer"), ("format", .str "int64")])])]) := by
  refine ⟨(c10_repeated_array_wrapper primCat numsRepField).1, ?_, ?_, ?_⟩
  · exact (c10_repeated_array_wrapper primCat numsRepField).2.1 [] [] [] [] .int64 rfl
      (JVal.obj [("type", .str "array"),
        ("items", .obj [("type", .str "integer"), ("format", .str "int64")])]) rfl
  · exact (c10_repeated_array_wrapper primCat numsRepField).2.2.1 []
      (JVal.obj [("type", .str "array"),
        ("items", .obj [("type", .str "integer"), ("format", .str "int64")])]) rfl
  · exact (c10_repeated_array_wrapper primCat numsRepField).2.2.2 [] []
      (JVal.obj [("type", .str "array"),
        ("items", .obj [("type", .str "integer"), ("format", .str "int64")])]) rfl rfl

/-- Evaluation of Handle on an instance that already has a cached
document: the cache is serialized and returned, state untouched. -/
theorem handle_cached (env : Env) (registry : Registry) (ver : Version)
    (doc : List (String × JVal)) (schemaObjs : Option Catalog) :
    handle env registry ver ⟨some doc, schemaObjs⟩ =
      (.ok (dumps (.obj doc)), ⟨some doc, schemaObjs⟩) := rfl

/-- Evaluation of Handle on a fresh instance whose schema extraction
raises: the exception propagates, but the metadata-only document assigned
to self.open_api_obj before the build stays cached. -/
theorem handle_extract_error (env : Env) (registry : Registry) (ver : Version)
    (e : BuildErr) (pc : Catalog)
    (hE : extractSchemas env registry = .error (e, pc)) :
    handle env registry ver initState =
      (.error e, ⟨some (setMetadata ver []), some pc⟩) := by
  unfold handle initState
  dsimp only
  rw [hE]

/-- Evaluation of Handle on a fresh instance whose endpoint synthesis
raises: the exception propagates, but the document holding metadata and
components stays cached. -/
theorem handle_endpoints_error (env : Env) (registry : Registry) (ver : Version)
    (cat : Catalog) (e : BuildErr)
    (hE : extractSchemas env registry = .ok cat)
    (hS : setEndpoints env registry cat = .error e) :
    handle env registry ver initState =
      (.error e, ⟨some (dictSet (setMetadata ver []) "components" (setComponents cat)),
        some cat⟩) := by
  unfold handle initState
  dsimp only
  rw [hE]
  dsimp only
  rw [hS]

/-- Evaluation of Handle on a fresh instance whose build completes: the
full document is serialized, returned and cached. -/
theorem handle_build_ok (env : Env) (registry : Registry) (ver : Version)
    (cat : Catalog) (paths : JVal)
    (hE : extractSchemas env registry = .ok cat)
    (hS : setEndpoints env registry cat = .ok paths) :
    handle env registry ver initState =
      (.ok (dumps (.obj (dictSet (dictSet (setMetadata ver []) "components"
          (setComponents cat)) "paths" paths))),
       ⟨some (dictSet (dictSet (setMetadata ver []) "components"
          (setComponents cat)) "paths" paths), some cat⟩) := by
  unfold handle initState
  dsimp only
  rw [hE]
  dsimp only
  rw [hS]

/-- C1: calling Handle twice on the same handler instance returns
byte-identical serialized documents whenever the first call succeeds: the
second call finds the cached document and returns exactly the first
call's result, state included. -/
theorem c1_handle_idempotent (env : Env) (registry : Registry) (ver : Version)
    (h : isOkE (handle env registry ver initState).1 = true) :
    handle env registry ver ((handle env registry ver initState).2) =
      handle env registry ver initState := by
  cases hE : extractSchemas env registry with
  | error e =>
    obtain ⟨e1, pc⟩ := e
    rw [handle_extract_error env registry ver e1 pc hE] at h
    exact absurd h (by simp [isOkE])
  | ok cat =>
    cases hS : setEndpoints env registry cat with
    | error e =>
      rw [handle_endpoints_error env registry ver cat e hE hS] at h
      exact absurd h (by simp [isOkE])
    | ok paths =>
      rw [handle_build_ok env registry ver cat paths hE hS]
      exact handle_cached env registry ver _ _

/-- Witness for C1 on the empty registry: the first call succeeds and the
second call returns the identical pair. -/
theorem c1_witness :
    isOkE (handle [] [] ⟨1, 2, 3, 4⟩ initState).1 = true ∧
    handle [] [] ⟨1, 2, 3, 4⟩ ((handle [] [] ⟨1, 2, 3, 4⟩ initState).2) =
      handle [] [] ⟨1, 2, 3, 4⟩ initState :=
  ⟨rfl, c1_handle_idempotent [] [] ⟨1, 2, 3, 4⟩ rfl⟩

/-- C5 is violated by the code: Handle assigns a fresh dict to
self.open_api_obj BEFORE building (line 598), so when the build of the
registry containing badMethod raises a TypeError, the error does
propagate, but the handler is left with a cached metadata-only document;
the next call to Handle returns that partial document (it lacks both the
components and the paths keys) instead of raising or rebuilding. -/
theorem c5_failed_build_caches_partial_document :
    isOkE (handle [] [badMethod] ⟨1, 2, 3, 4⟩ initState).1 = false ∧
    (handle [] [badMethod] ⟨1, 2, 3, 4⟩ initState).2.openApiObj =
      some (setMetadata ⟨1, 2, 3, 4⟩ []) ∧
    (handle [] [badMethod] ⟨1, 2, 3, 4⟩
        ((handle [] [badMethod] ⟨1, 2, 3, 4⟩ initState).2)).1 =
      .ok (dumps (.obj (setMetadata ⟨1, 2, 3, 4⟩ []))) ∧
    lookupJ (setMetadata ⟨1, 2, 3, 4⟩ []) "components" = none ∧
    lookupJ (setMetadata ⟨1, 2, 3, 4⟩ []) "paths" = none := by
  have hE : extractSchemas [] [badMethod] = .error (.typeError "Bogus", primCat) := by
    simp [extractSchemas, extractSchemasLoop, extractArgsTypeSchema,
          extractResultTypeSchema, badMethod, extractSchema, lookupJ, keysJ,
          primCat, addPrimitiveTypesSchemas, primitiveSchemas, styName, primName,
          primitiveTypesNames]
  have h1 := handle_extract_error [] [badMethod] ⟨1, 2, 3, 4⟩ (.typeError "Bogus")
    primCat hE
  refine ⟨?_, ?_, ?_, rfl, rfl⟩
  · rw [h1]
    rfl
  · rw [h1]
  · rw [h1]
    exact congrArg Prod.fst (handle_cached [] [badMethod] ⟨1, 2, 3, 4⟩
      (setMetadata ⟨1, 2, 3, 4⟩ []) (some primCat))

end Metadata
